import Mathlib

/-!
# Verification of the LJB asset / work-order reconciliation scripts

Shallow embedding of the two Python scripts
`src/asset-workorder-updates-ljb.py` (the "legacy" OP/PE model, 12/2021) and
`src/script/asset-workorder-updates-ljb.py` (the "unified" asset model, 07/2022),
together with proofs settling the claims about the reconciliation engine
(`updateServices`), the snapshot builder (`buildQueryDictionaries`), the
most-recent work-order-row selection, the End-of-Month interval resolution,
and the archive clean-up (`cleanUp`).

Modelling conventions:
* Timestamps are epoch milliseconds, modelled as `Int`.  `datetime.fromtimestamp(t/1000)`
  preserves the instant, so a Python `datetime` is modelled by its epoch-millisecond
  value; `(a - b).days` on two datetimes is Python floor division of the
  millisecond difference by 86400000, i.e. `Int.fdiv (a - b) 86400000`
  (Python `//` floors toward negative infinity, as does `Int.fdiv`).
* Nullable attributes are `Option Int` / `Option String`.
* External calls that can raise are driven by an explicit `Oracle` of outcomes;
  an uncaught Python exception is `Except.error` with the exception kind.  A
  crashed run carries no effects: the exception propagates to the top-level
  `except` before any workbook or report is produced, so report rows recorded
  before the crash are moot.
-/

/-- Milliseconds in one day, the constant `86400000` used throughout both scripts. -/
def dayMs : Int := 86400000

/-- Python `(a - b).days` for two datetimes given as epoch milliseconds:
floor division of the millisecond difference by one day. -/
def pyDays (a b : Int) : Int := Int.fdiv (a - b) dayMs

/-- Kinds of uncaught Python exceptions the scripts can raise mid-run
(each aborts the whole run via the top-level `except`). -/
inductive Crash where
  /-- `list[0]` on an empty `query(...).features` result. -/
  | indexError
  /-- use of the local variable `paths` when the attachment download raised
  before binding it. -/
  | nameError
  /-- arithmetic on a `None` attribute (e.g. `CompleteDate/1000`). -/
  | typeError
  /-- an `edit_features` call that raised outside any `try` block. -/
  | writeError
  /-- a lookup such as `op_type_dict[op_type]` with a key not in the dictionary. -/
  | keyError
deriving DecidableEq, Repr

/-- Outcomes of the external GIS calls made while processing one asset in the
legacy `updateServices`.  `true` means the call fails (raises) / the queried
feature list comes back empty; all-`false` is normal operation. -/
structure Oracle where
  /-- `work_orders.edit_features(adds = ...)` raises (caught by `try`). -/
  insertFails : Bool := false
  /-- the read-back `work_orders.query(...).features` is empty. -/
  readbackEmpty : Bool := false
  /-- the asset has attachments (`len(get_list(...)) > 0`). -/
  hasAttachments : Bool := false
  /-- `assets.attachments.download(...)` raises (caught by `try`,
  but then `paths` is left unbound). -/
  downloadFails : Bool := false
  /-- the loop-local variable `paths` was already bound by an earlier
  iteration of the asset loop. -/
  pathsBound : Bool := false
  /-- `assets.query('HazardID = ...').features` is empty. -/
  assetQueryEmpty : Bool := false
  /-- `assets.edit_features(updates = ...)` raises (NOT inside a `try`). -/
  assetUpdateFails : Bool := false
  /-- `work_orders.query('OBJECTID = ...').features` is empty. -/
  woQueryEmpty : Bool := false
  /-- `work_orders.edit_features(updates = ...)` raises (NOT inside a `try`). -/
  woUpdateFails : Bool := false
deriving DecidableEq, Repr

/-- Normal operation: every external call succeeds and the asset has no attachments. -/
def okOracle : Oracle := {}

/-- One row of the legacy OP/PE work-order dictionaries
(`op_work_order_dict` / `pe_work_order_dict`): indices 0-6 of the stored list,
restricted to the fields `updateServices` reads. -/
structure LegacyWO where
  /-- index 4, `AssignmentStatus`. -/
  status : String
  /-- index 1, `CompleteDate` (nullable). -/
  completeDate : Option Int
  /-- index 2, `username` (the assignee recorded in the Completed row). -/
  assignedTo : String
  /-- index 3, `AssignmentDueDate` (nullable: the dictionaries admit a row whose
  null due date equals the asset's null `NextOpInspect`). -/
  due : Option Int
  /-- index 5, `OBJECTID`. -/
  oid : Int
deriving DecidableEq, Repr

/-- A new work order inserted by `work_orders.edit_features(adds = [add_dict])`,
restricted to the attributes the claims mention. -/
structure WOAdd where
  /-- `AssignmentStatus` (always the literal `'Assigned'` in the source). -/
  status : String
  /-- `AssignmentType`. -/
  atype : String
  /-- `AssignmentDueDate`. -/
  due : Int
  /-- `HazardID`. -/
  hazardId : Int
  /-- geometry, copied from the asset (`'geometry': geom`). -/
  geom : String
deriving DecidableEq, Repr

/-- An in-place status update of an existing work order
(`work_order_edit.attributes['AssignmentStatus'] = 'Overdue'` then `edit_features(updates=...)`). -/
structure WOStatusUpdate where
  oid : Int
  status : String
deriving DecidableEq, Repr

/-- An update of the asset's inspection-date fields
(`LastOpInspect`/`NextOpInspect`, resp. `InspectDate`/`NextPEInspect`). -/
structure AssetDateUpdate where
  hazardId : Int
  lastInspect : Int
  nextInspect : Int
deriving DecidableEq, Repr

/-- An Upcoming report row (the claims only inspect the due date recorded in it). -/
structure UpRow where
  due : Int
deriving DecidableEq, Repr

/-- An Overdue report row: original due date and the computed `days_overdue`. -/
structure OverRow where
  due : Int
  daysOverdue : Int
deriving DecidableEq, Repr

/-- A Completed report row: the completion date recorded in it. -/
structure CompRow where
  completeDate : Int
deriving DecidableEq, Repr

/-- The per-asset effects of one pass of the legacy engine on one inspection
kind (OP or PE): at most one report row of each kind plus the external writes. -/
structure LegacyEffects where
  upcoming : Option UpRow := none
  completed : Option CompRow := none
  overdue : Option OverRow := none
  woAdds : List WOAdd := []
  woUpdates : List WOStatusUpdate := []
  assetUpdates : List AssetDateUpdate := []
deriving DecidableEq, Repr

/-- The attachment-copy sequence of the legacy script (both the no-work-order
and the completed-renewal branches, lines 309-322 / 387-400): the download is
inside `try/except`, but if it raised, the following `for path in paths` uses
`paths` unbound (a `NameError`) unless an earlier loop iteration bound it. -/
def attachPhase (orc : Oracle) : Except Crash Unit :=
  if orc.hasAttachments then
    if orc.downloadFails then
      if orc.pathsBound then .ok () else .error .nameError
    else .ok ()
  else .ok ()

/-- The legacy `updateServices` logic for one asset and one inspection kind
(the OP block, lines 262-459; the PE block, lines 464-659, is the same code with
`leadWindow = 375` instead of `40`).  Inputs are the asset-dictionary fields for
this kind (`next_insp`, `last_insp`, `freq`), the correlated work order from the
kind's work-order dictionary (or `none`), today's timestamp, and the oracle of
external-call outcomes.  Returns the effects, or the uncaught exception. -/
def legacyStep (leadWindow : Int) (hazardId : Int) (nextInsp : Option Int)
    (freq : Int) (atype : Option String) (geom : String)
    (wo : Option LegacyWO) (today : Int) (orc : Oracle) :
    Except Crash LegacyEffects :=
  match nextInsp with
  | none => .ok {}
  | some due =>
    match wo with
    | none =>
      -- lines 263-322: due date set and no work order is scheduled
      let daysTillDue := pyDays today due      -- (today - duedate).days
      if daysTillDue ≤ leadWindow then
        -- upcoming row, then `add_dict` construction (a KeyError if the
        -- `OperatorType` is not an `op_type_dict` key), then try-insert, then
        -- unguarded read-back, then attachments
        match atype with
        | none => .error .keyError
        | some ty =>
          let eff : LegacyEffects :=
            { upcoming := some { due := due },
              woAdds :=
                if orc.insertFails then []
                else [{ status := "Assigned", atype := ty, due := due,
                        hazardId := hazardId, geom := geom }] }
          -- `work_orders.query('HazardID = ...').features[0]` is outside the try
          if orc.readbackEmpty then .error .indexError
          else
            match attachPhase orc with
            | .error c => .error c
            | .ok () => .ok eff
      else .ok {}
    | some w =>
      if w.status = "Completed" then
        -- lines 326-419: work order exists and is complete
        match w.completeDate with
        | none => .error .typeError    -- datetime.fromtimestamp(None/1000)
        | some completeDate =>
          let nextDue := due + freq * dayMs            -- op_next_insp + (op_freq*86400000)
          let daysTillDue := pyDays nextDue due        -- (next_due_date - duedate).days
          let base : LegacyEffects := { completed := some { completeDate := completeDate } }
          if daysTillDue ≤ leadWindow then
            match atype with
            | none => .error .keyError
            | some ty =>
              let eff : LegacyEffects :=
                { base with
                  upcoming := some { due := nextDue },
                  woAdds :=
                    if orc.insertFails then []
                    else [{ status := "Assigned", atype := ty, due := nextDue,
                            hazardId := hazardId, geom := geom }],
                  assetUpdates := [{ hazardId := hazardId, lastInspect := completeDate,
                                     nextInspect := nextDue }] }
              if orc.readbackEmpty then .error .indexError
              else
                match attachPhase orc with
                | .error c => .error c
                | .ok () =>
                  -- `assets.query(...).features[0]` and `assets.edit_features`
                  -- are not inside any try block
                  if orc.assetQueryEmpty then .error .indexError
                  else if orc.assetUpdateFails then .error .writeError
                  else .ok eff
          else
            -- lines 409-419: not within the window; still update the asset dates
            if orc.assetQueryEmpty then .error .indexError
            else if orc.assetUpdateFails then .error .writeError
            else .ok { base with
                       assetUpdates := [{ hazardId := hazardId, lastInspect := completeDate,
                                          nextInspect := nextDue }] }
      else
        -- lines 421-459: work order exists and is not complete
        match w.due with
        | none => .error .typeError    -- datetime.fromtimestamp(None/1000), line 425
        | some wdue =>
          if wdue < today then
            -- overdue: report row plus unguarded in-place status update
            if orc.woQueryEmpty then .error .indexError
            else if orc.woUpdateFails then .error .writeError
            else .ok { overdue := some { due := wdue, daysOverdue := pyDays today wdue },
                       woUpdates := [{ oid := w.oid, status := "Overdue" }] }
          else
            .ok { upcoming := some { due := wdue } }

/-! ## Calendar model

The unified script manipulates calendar dates (`datetime.replace(day=28)`,
`timedelta(days=...)`) for the "End of Month" interval.  A `datetime` value is
split into its civil date and its time of day; `replace` and whole-day
`timedelta` arithmetic never touch the time of day, so the calendar part is
modelled on civil dates, with `timedelta(days = k)` as `k` applications of the
calendar-day successor (no DST in the model).  Conversion between epoch days
and civil dates uses the standard Gregorian algorithms. -/

/-- A civil (proleptic Gregorian) calendar date. -/
structure Date where
  year : Int
  month : Int
  day : Int
deriving DecidableEq, Repr

/-- Gregorian leap-year rule. -/
def isLeap (y : Int) : Bool := (y % 4 == 0 && y % 100 != 0) || y % 400 == 0

/-- Number of days in a month of a given year. -/
def daysInMonth (y m : Int) : Int :=
  if m = 2 then (if isLeap y then 29 else 28)
  else if m = 4 ∨ m = 6 ∨ m = 9 ∨ m = 11 then 30
  else 31

/-- A structurally valid civil date. -/
def Date.Valid (x : Date) : Prop :=
  1 ≤ x.month ∧ x.month ≤ 12 ∧ 1 ≤ x.day ∧ x.day ≤ daysInMonth x.year x.month

instance (x : Date) : Decidable x.Valid := by
  unfold Date.Valid; infer_instance

/-- Epoch days (days since 1970-01-01) to civil date. -/
def civilFromDays (z0 : Int) : Date :=
  let z := z0 + 719468
  let era := Int.fdiv z 146097
  let doe := z - era * 146097
  let yoe := Int.fdiv (doe - Int.fdiv doe 1460 + Int.fdiv doe 36524 - Int.fdiv doe 146096) 365
  let doy := doe - (365 * yoe + Int.fdiv yoe 4 - Int.fdiv yoe 100)
  let mp := Int.fdiv (5 * doy + 2) 153
  let d := doy - Int.fdiv (153 * mp + 2) 5 + 1
  let m := mp + (if mp < 10 then 3 else -9)
  ⟨yoe + era * 400 + (if m ≤ 2 then 1 else 0), m, d⟩

/-- Civil date to epoch days (days since 1970-01-01). -/
def daysFromCivil (x : Date) : Int :=
  let y := x.year - (if x.month ≤ 2 then 1 else 0)
  let era := Int.fdiv y 400
  let yoe := y - era * 400
  let mp := x.month + (if 2 < x.month then -3 else 9)
  let doy := Int.fdiv (153 * mp + 2) 5 + x.day - 1
  let doe := yoe * 365 + Int.fdiv yoe 4 - Int.fdiv yoe 100 + doy
  era * 146097 + doe - 719468

/-- Calendar-day successor. -/
def nextDay (x : Date) : Date :=
  if x.day < daysInMonth x.year x.month then ⟨x.year, x.month, x.day + 1⟩
  else if x.month < 12 then ⟨x.year, x.month + 1, 1⟩
  else ⟨x.year + 1, 1, 1⟩

/-- Calendar-day predecessor. -/
def prevDay (x : Date) : Date :=
  if 1 < x.day then ⟨x.year, x.month, x.day - 1⟩
  else if 1 < x.month then ⟨x.year, x.month - 1, daysInMonth x.year (x.month - 1)⟩
  else ⟨x.year - 1, 12, 31⟩

/-- `timedelta(days = n)` addition on the calendar part of a datetime. -/
def addDaysCiv (x : Date) : Nat → Date
  | 0 => x
  | n + 1 => addDaysCiv (nextDay x) n

/-- `timedelta(days = n)` subtraction on the calendar part of a datetime. -/
def subDaysCiv (x : Date) : Nat → Date
  | 0 => x
  | n + 1 => subDaysCiv (prevDay x) n

/-- Lines 395-397 of the unified script: given the provisional `next_due_date`,
`next_month = next_due_date.replace(day=28) + timedelta(days=4)` and
`next_due_date = next_month - timedelta(days=next_month.day)`. -/
def eomAdjust (nextDueDate : Date) : Date :=
  let nextMonth := addDaysCiv ⟨nextDueDate.year, nextDueDate.month, 28⟩ 4
  subDaysCiv nextMonth nextMonth.day.toNat

/-- The full "End of Month" resolution of the unified script at the calendar
level: line 394 first adds `insp_interval_dict['End of Month'] = 2419200000` ms
(exactly 28 days) to the completion reference, then lines 395-397 apply
`eomAdjust` to the resulting date. -/
def eomResolve (completion : Date) : Date := eomAdjust (addDaysCiv completion 28)

/-- The last calendar day of the month a given date falls in. -/
def monthEnd (x : Date) : Date := ⟨x.year, x.month, daysInMonth x.year x.month⟩

/-- `datetime.fromtimestamp(t/1000)` restricted to its civil date. -/
def dateOfMs (t : Int) : Date := civilFromDays (Int.fdiv t dayMs)

/-- The time-of-day remainder of an epoch-millisecond instant. -/
def msOfDayRem (t : Int) : Int := t - Int.fdiv t dayMs * dayMs

/-- The "End of Month" resolution at the millisecond level as used in the
unified `updateServices` (line 394 + lines 395-397): add 2419200000 ms to
`created_date`, adjust the civil date to the month end, keep the time of day. -/
def eomFromCreatedMs (created : Int) : Int :=
  let n0 := created + 2419200000
  dayMs * daysFromCivil (eomAdjust (dateOfMs n0)) + msOfDayRem n0

example : civilFromDays 0 = ⟨1970, 1, 1⟩ := by decide
example : civilFromDays 19023 = ⟨2022, 1, 31⟩ := by decide
example : daysFromCivil ⟨2022, 1, 31⟩ = 19023 := by decide
example : daysFromCivil ⟨1969, 12, 31⟩ = -1 := by decide
example : civilFromDays (-1) = ⟨1969, 12, 31⟩ := by decide

/-! ## Unified model (`src/script/asset-workorder-updates-ljb.py`) -/

/-- One row of the unified work-order table dictionary `wo_table_dict`
(indices 0-7 of the stored list). -/
structure TRow where
  /-- index 0, `username`. -/
  username : String
  /-- index 1, `AssignmentStatus`. -/
  status : String
  /-- index 2, `AssignmentType`. -/
  atype : String
  /-- index 3, `AssignmentDueDate` (nullable). -/
  due : Option Int
  /-- index 4, `LastInspect` (nullable) - the timestamp used by the
  most-recent-row selection (`v[4]`). -/
  lastInspect : Option Int
  /-- index 5, `RELAssetID` (nullable). -/
  relAssetId : Option Int
  /-- index 6, `created_date`. -/
  created : Int
  /-- index 7, `OBJECTID`. -/
  oid : Int
deriving DecidableEq, Repr

/-- One entry of the unified work-order point dictionary `work_orders_dict`,
restricted to the fields the claims mention. -/
structure UWOPoint where
  /-- index 2, `AssignmentDueDate` (nullable). -/
  due : Option Int
  /-- index 3, `AssignmentStatus`. -/
  status : String
  /-- index 7, `OBJECTID`. -/
  oid : Int
deriving DecidableEq, Repr

/-- One entry of the unified asset dictionary `asset_dict`, restricted to the
fields `updateServices` reads.  `nextInsp` is non-optional because
`buildQueryDictionaries` only admits assets with a non-null `NextInspection`
(and `updateServices` re-checks `next_insp != None` at line 293). -/
structure UAsset where
  assetId : Int
  /-- `NextInspection`. -/
  nextInsp : Int
  /-- `LastInspect` (nullable). -/
  lastInsp : Option Int
  /-- `InspectInterval`. -/
  interval : String
  /-- `OBJECTID`. -/
  oid : Int
deriving DecidableEq, Repr

/-- `insp_interval_dict` (unified script lines 249-255): named frequency to a
duration in milliseconds; `none` for a name not in the dictionary. -/
def inspIntervalDuration (s : String) : Option Int :=
  if s = "Daily" then some 86400000
  else if s = "Shift Start" then some 43200000
  else if s = "Weekly" then some 604800000
  else if s = "Monthly" then some 2678400000
  else if s = "End of Month" then some 2419200000
  else none

/-- An in-place edit of the unified work-order point
(`work_orders_lyr.edit_features(updates=[wo_edit])`).  `status` is `none` in
the copy-schedule-fields branch (lines 507-522), where `wo_edit` carries no
`AssignmentStatus` key. -/
structure UWoUpdate where
  oid : Int
  status : Option String
  nextInspect : Int
  lastInspect : Option Int
deriving DecidableEq, Repr

/-- An edit of the unified asset layer (`asset_lyr.edit_features(updates=[asset_edit])`,
lines 420-432). -/
structure UAssetUpdate where
  oid : Int
  nextInspect : Int
  lastInspect : Int
deriving DecidableEq, Repr

/-- A unified Completed report row: completion reference and the newly
computed next due date recorded in it (`completed_date_format`,
`next_due_date_format`). -/
structure UComRow where
  completedDate : Int
  nextDue : Int
deriving DecidableEq, Repr

/-- The per-asset effects of the unified engine: report rows plus writes. -/
structure UEffects where
  upcoming : Option UpRow := none
  overdue : Option OverRow := none
  completed : Option UComRow := none
  woUpdates : List UWoUpdate := []
  assetUpdates : List UAssetUpdate := []
deriving DecidableEq, Repr

/-- The most-recent work-order-row scan (unified lines 326-334), processing
`wo_table_dict` in insertion order while maintaining `latest_date` (initially
`0`) and `most_recent_wo_globalid` (initially `''`): a candidate row (one with
`RELAssetID == asset_id`) with a non-null `LastInspect` strictly greater than
`latest_date` becomes the selection and raises `latest_date`; a candidate row
with a null `LastInspect` becomes the selection without touching `latest_date`. -/
def mostRecentScan (assetId : Int) :
    List (String × TRow) → Int × String → Int × String
  | [], acc => acc
  | (gid, row) :: rest, (latest, mr) =>
    if row.relAssetId = some assetId then
      match row.lastInspect with
      | some d =>
        if latest < d then mostRecentScan assetId rest (d, gid)
        else mostRecentScan assetId rest (latest, mr)
      | none => mostRecentScan assetId rest (latest, gid)
    else mostRecentScan assetId rest (latest, mr)

/-- The GlobalID selected by the most-recent scan. -/
def mostRecentWoGid (assetId : Int) (tbl : List (String × TRow)) : String :=
  (mostRecentScan assetId tbl (0, "")).2

/-- `work_orders_tbl.query("GlobalID = '...'")`: look up a table row by its
GlobalID (dictionary keys are unique). -/
def lookupGid (gid : String) (tbl : List (String × TRow)) : Option TRow :=
  match tbl.find? (fun p => p.1 == gid) with
  | some p => some p.2
  | none => none

/-- The completed branch of the unified engine (lines 390-454): resolve the
next due date from the most recent table row's `created_date` and the asset's
interval (with the End-of-Month calendar rule; an interval name not in
`insp_interval_dict` keeps the asset's current `NextInspection`), mark the
work-order point Completed, update the asset's date fields, and append a
Completed report row.  All these edits are inside `try/except`. -/
def unifiedCompleted (a : UAsset) (w : UWOPoint) (mr : TRow) : UEffects :=
  let nextDue :=
    match inspIntervalDuration a.interval with
    | some dur =>
      if a.interval = "End of Month" then eomFromCreatedMs mr.created
      else mr.created + dur
    | none => a.nextInsp
  { completed := some { completedDate := mr.created, nextDue := nextDue },
    woUpdates := [{ oid := w.oid, status := some "Completed",
                    nextInspect := nextDue, lastInspect := some mr.created }],
    assetUpdates := [{ oid := a.oid, nextInspect := nextDue,
                       lastInspect := mr.created }] }

/-- The unified `updateServices` logic for one asset (lines 293-522).
`woPoint` is the correlated entry of `work_orders_dict` (or `none`), `tbl` is
`wo_table_dict` in insertion order, `today` the run timestamp.
`days_till_due` is `((next_insp_date - today).days) + 1` (lines 307/345/462).
The only modelled crash is `query("GlobalID = '...'").features[0]` on an empty
result (line 335); every `edit_features` here is inside `try/except`. -/
def unifiedStep (a : UAsset) (woPoint : Option UWOPoint)
    (tbl : List (String × TRow)) (today : Int) : Except Crash UEffects :=
  let daysTillDue := pyDays a.nextInsp today + 1
  match woPoint with
  | none =>
    -- lines 301-317: due date set and no work order point exists
    if 0 ≤ daysTillDue ∧ daysTillDue ≤ 60 then
      .ok { upcoming := some { due := a.nextInsp } }
    else if daysTillDue < 0 then
      .ok { overdue := some { due := a.nextInsp, daysOverdue := -daysTillDue } }
    else .ok {}
  | some w =>
    if (tbl.map (fun p => p.2.relAssetId)).contains (some a.assetId) then
      -- lines 322-454: a work order table row exists for this asset
      let gid := mostRecentWoGid a.assetId tbl
      match lookupGid gid tbl with
      | none => .error .indexError
      | some mr =>
        if (match a.lastInsp with
            | some li => decide (mr.created ≤ li)
            | none => false) then
          -- lines 339-388: the table row is outdated
          if 0 ≤ daysTillDue ∧ daysTillDue ≤ 60 then
            .ok { upcoming := some { due := a.nextInsp },
                  woUpdates := [{ oid := w.oid, status := some "Assigned",
                                  nextInspect := a.nextInsp,
                                  lastInspect := a.lastInsp }] }
          else if daysTillDue < 0 then
            .ok { overdue := some { due := a.nextInsp, daysOverdue := -daysTillDue },
                  woUpdates := [{ oid := w.oid, status := some "Overdue",
                                  nextInspect := a.nextInsp,
                                  lastInspect := a.lastInsp }] }
          else .ok {}   -- no further `elif`: days_till_due > 60 does nothing here
        else
          unifiedCompleted a w mr |> .ok
    else
      -- lines 456-522: work order point exists, no table row
      if 0 ≤ daysTillDue ∧ daysTillDue ≤ 60 then
        .ok { upcoming := some { due := a.nextInsp },
              woUpdates := [{ oid := w.oid, status := some "Assigned",
                              nextInspect := a.nextInsp,
                              lastInspect := a.lastInsp }] }
      else if daysTillDue < 0 then
        .ok { overdue := some { due := a.nextInsp, daysOverdue := -daysTillDue },
              woUpdates := [{ oid := w.oid, status := some "Overdue",
                              nextInspect := a.nextInsp,
                              lastInspect := a.lastInsp }] }
      else if 60 < daysTillDue then
        .ok { woUpdates := [{ oid := w.oid, status := none,
                              nextInspect := a.nextInsp,
                              lastInspect := a.lastInsp }] }
      else .ok {}

/-! ## Snapshot builders (`buildQueryDictionaries`) -/

/-- A raw legacy asset feature, restricted to the attributes
`buildQueryDictionaries` reads (legacy script lines 176-196). -/
structure RawAsset where
  /-- `HazardID` (nullable). -/
  hazardId : Option Int
  /-- `OperatorType`. -/
  opType : String
  /-- `OperatorFrequency`. -/
  opFreq : Int
  /-- `NextOpInspect` (nullable). -/
  nextOp : Option Int
  /-- `LastOpInspect` (nullable). -/
  lastOp : Option Int
  /-- `PEFrequency`. -/
  peFreq : Int
  /-- `NextPEInspect` (nullable). -/
  nextPe : Option Int
  /-- `InspectDate` (nullable). -/
  lastPe : Option Int
  /-- `OBJECTID`. -/
  oid : Int
  /-- geometry. -/
  geom : String
deriving DecidableEq, Repr

/-- The value stored in the legacy `asset_dict` for an admitted asset. -/
structure LegacyAssetRec where
  opType : String
  opFreq : Int
  nextOp : Option Int
  lastOp : Option Int
  peFreq : Int
  nextPe : Option Int
  lastPe : Option Int
  oid : Int
  geom : String
deriving DecidableEq, Repr

/-- Legacy admission test: a due date has been set for either OP or PE
(line 178) and the asset has a `HazardID` (line 179). -/
def legacyAdmits (a : RawAsset) : Bool :=
  (a.nextOp.isSome || a.nextPe.isSome) && a.hazardId.isSome

/-- The dictionary entry the legacy builder makes from one asset feature:
`some` only if a due date has been set for OP or PE (line 178) and the
`HazardID` is non-null (line 179). -/
def legacyAssetEntry (a : RawAsset) : Option (Int × LegacyAssetRec) :=
  if a.nextOp.isSome || a.nextPe.isSome then
    match a.hazardId with
    | some h => some (h, { opType := a.opType, opFreq := a.opFreq,
                           nextOp := a.nextOp, lastOp := a.lastOp,
                           peFreq := a.peFreq, nextPe := a.nextPe,
                           lastPe := a.lastPe, oid := a.oid, geom := a.geom })
    | none => none
  else none

/-- The legacy `asset_dict` as an association list in feature order; a later
binding of the same `HazardID` overwrites an earlier one (Python dict), so
lookups take the last binding. -/
def buildAssetDictLegacy (assets : List RawAsset) : List (Int × LegacyAssetRec) :=
  assets.filterMap legacyAssetEntry

/-- The warning the legacy builder logs for one asset feature:
`'Asset ObjectID ... is mising an Asset ID (Hazard ID)!!'` (line 196) when the
asset has a due date but a null `HazardID`. -/
def legacyWarnEntry (a : RawAsset) : Option Int :=
  if (a.nextOp.isSome || a.nextPe.isSome) && a.hazardId.isNone then some a.oid
  else none

/-- The `OBJECTID`s the legacy builder warns about. -/
def legacyIdWarnings (assets : List RawAsset) : List Int :=
  assets.filterMap legacyWarnEntry

/-- Python dict lookup on an association list built in insertion order:
the last binding of a key wins. -/
def dictLookup (d : List (Int × α)) (k : Int) : Option α :=
  match d.reverse.find? (fun p => p.1 == k) with
  | some p => some p.2
  | none => none

/-- A raw legacy work-order feature, restricted to the attributes read. -/
structure RawWO where
  /-- `HazardID` (nullable). -/
  hazardId : Option Int
  /-- `AssignmentType`. -/
  atype : String
  /-- `CompleteDate` (nullable). -/
  completeDate : Option Int
  /-- `username`. -/
  username : String
  /-- `AssignmentDueDate` (nullable). -/
  due : Option Int
  /-- `AssignmentStatus`. -/
  status : String
  /-- `OBJECTID`. -/
  oid : Int
deriving DecidableEq, Repr

/-- The legacy OP/PE work-order dictionaries (lines 198-230): keep rows whose
`AssignmentType` passes the layer-query filter, whose `HazardID` is a key of
`asset_dict`, and whose `AssignmentDueDate` equals that asset's `NextOpInspect`
(index 7 — the PE loop at line 222 also compares against index 7). -/
def buildWODictLegacy (typeFilter : String → Bool)
    (assetDict : List (Int × LegacyAssetRec)) (wos : List RawWO) :
    List (Int × LegacyWO) :=
  (wos.filter (fun o => typeFilter o.atype)).filterMap (fun o =>
    match o.hazardId with
    | some h =>
      match dictLookup assetDict h with
      | some rec =>
        if o.due == rec.nextOp then
          some (h, { status := o.status, completeDate := o.completeDate,
                     assignedTo := o.username, due := o.due, oid := o.oid })
        else none
      | none => none
    | none => none)

/-- The OP layer-query filter:
`"AssignmentType IN ('WWS Operator Inspection', 'Crane Operator Inspection')"`. -/
def opTypeFilter (t : String) : Bool :=
  t == "WWS Operator Inspection" || t == "Crane Operator Inspection"

/-- The PE layer-query filter: `"AssignmentType = 'PE Inspection'"`. -/
def peTypeFilter (t : String) : Bool := t == "PE Inspection"

/-- `op_type_dict` (line 249): maps the asset's `OperatorType` to the
`AssignmentType` of a newly created work order; `none` models the `KeyError`
raised by `op_type_dict[op_type]` for any other type. -/
def opTypeName (opType : String) : Option String :=
  if opType = "Operator" then some "WWS Operator Inspection"
  else if opType = "Crane" then some "Crane Operator Inspection"
  else none

/-- A raw unified asset feature (unified script lines 181-201). -/
structure URawAsset where
  /-- the `...AssetID...` field (nullable). -/
  assetId : Option Int
  /-- `EquipType`. -/
  equipType : String
  /-- `NextInspection` (nullable). -/
  nextInspection : Option Int
  /-- `LastInspect` (nullable). -/
  lastInspect : Option Int
  /-- `InspectInterval`. -/
  inspectInterval : String
  /-- `OBJECTID`. -/
  oid : Int
  /-- `GlobalID`. -/
  globalId : String
deriving DecidableEq, Repr

/-- The dictionary entry the unified builder makes from one asset feature:
`some` only if `NextInspection` is non-null (line 185) and the asset-id field
is non-null (line 186). -/
def unifiedAssetEntry (a : URawAsset) : Option (Int × UAsset) :=
  match a.nextInspection with
  | some n =>
    match a.assetId with
    | some i => some (i, { assetId := i, nextInsp := n, lastInsp := a.lastInspect,
                           interval := a.inspectInterval, oid := a.oid })
    | none => none
  | none => none

/-- The unified `asset_dict` as an association list. -/
def buildAssetDictUnified (assets : List URawAsset) : List (Int × UAsset) :=
  assets.filterMap unifiedAssetEntry

/-- The warning the unified builder logs for one asset feature:
`'Asset with Global ID ... is missing an Asset ID!!'` (line 201) when the
asset has a `NextInspection` but a null asset id. -/
def unifiedWarnEntry (a : URawAsset) : Option String :=
  if a.nextInspection.isSome && a.assetId.isNone then some a.globalId
  else none

/-- The `GlobalID`s the unified builder warns about. -/
def unifiedIdWarnings (assets : List URawAsset) : List String :=
  assets.filterMap unifiedWarnEntry

/-! ## The legacy whole-run engine and its store -/

/-- The remote store the legacy run reads its snapshot from. -/
structure LegacyStore where
  assets : List RawAsset
  workOrders : List RawWO
deriving DecidableEq, Repr

/-- The snapshot `buildQueryDictionaries` hands to `updateServices`. -/
structure LegacySnapshot where
  assetDict : List (Int × LegacyAssetRec)
  opWo : List (Int × LegacyWO)
  peWo : List (Int × LegacyWO)
deriving DecidableEq, Repr

/-- `buildQueryDictionaries` for the legacy store. -/
def legacySnap (st : LegacyStore) : LegacySnapshot :=
  let d := buildAssetDictLegacy st.assets
  { assetDict := d,
    opWo := buildWODictLegacy opTypeFilter d st.workOrders,
    peWo := buildWODictLegacy peTypeFilter d st.workOrders }

/-- The six report dictionaries returned by the legacy `updateServices`,
keyed by `HazardID`. -/
structure LegacyBuckets where
  opUpcoming : List (Int × UpRow) := []
  opCompleted : List (Int × CompRow) := []
  opOverdue : List (Int × OverRow) := []
  peUpcoming : List (Int × UpRow) := []
  peCompleted : List (Int × CompRow) := []
  peOverdue : List (Int × OverRow) := []
deriving DecidableEq, Repr

/-- All external writes a legacy run performs, in order of kind. -/
structure LegacyWrites where
  woAdds : List WOAdd := []
  woUpdates : List WOStatusUpdate := []
  opAssetUpdates : List AssetDateUpdate := []
  peAssetUpdates : List AssetDateUpdate := []
deriving DecidableEq, Repr

/-- The distinct keys of an association list in first-insertion order
(Python dict iteration order). -/
def dictKeys (d : List (Int × α)) : List Int := (d.map (fun p => p.1)).eraseDups

/-- The legacy `updateServices` over a whole snapshot: loop over `asset_dict`
in insertion order, run the OP block then the PE block for each asset, and
accumulate the report dictionaries and the writes.  All external calls succeed
(`okOracle`); an uncaught exception aborts the run. -/
def runLegacy (s : LegacySnapshot) (today : Int) :
    Except Crash (LegacyBuckets × LegacyWrites) :=
  (dictKeys s.assetDict).foldlM (fun (acc : LegacyBuckets × LegacyWrites) h => do
    let (b, w) := acc
    match dictLookup s.assetDict h with
    | none => pure (b, w)
    | some rec =>
      let opEff ← legacyStep 40 h rec.nextOp rec.opFreq (opTypeName rec.opType)
        rec.geom (dictLookup s.opWo h) today okOracle
      let peEff ← legacyStep 375 h rec.nextPe rec.peFreq (some "PE Inspection")
        rec.geom (dictLookup s.peWo h) today okOracle
      let addRow {α} (l : List (Int × α)) : Option α → List (Int × α)
        | some r => l ++ [(h, r)]
        | none => l
      pure
        ({ opUpcoming := addRow b.opUpcoming opEff.upcoming,
           opCompleted := addRow b.opCompleted opEff.completed,
           opOverdue := addRow b.opOverdue opEff.overdue,
           peUpcoming := addRow b.peUpcoming peEff.upcoming,
           peCompleted := addRow b.peCompleted peEff.completed,
           peOverdue := addRow b.peOverdue peEff.overdue },
         { woAdds := w.woAdds ++ opEff.woAdds ++ peEff.woAdds,
           woUpdates := w.woUpdates ++ opEff.woUpdates ++ peEff.woUpdates,
           opAssetUpdates := w.opAssetUpdates ++ opEff.assetUpdates,
           peAssetUpdates := w.peAssetUpdates ++ peEff.assetUpdates }))
    (({} : LegacyBuckets), ({} : LegacyWrites))

/-- Apply the run's writes back to the store: inserts append new work-order
features, status updates edit the matching `OBJECTID` in place, asset date
updates edit the matching `HazardID`'s OP resp. PE date fields in place. -/
def applyLegacyWrites (st : LegacyStore) (w : LegacyWrites) : LegacyStore :=
  let newOid := (st.workOrders.map (fun o => o.oid)).foldl max 0 + 1
  let afterAdds := st.workOrders ++ w.woAdds.map (fun a =>
    { hazardId := some a.hazardId, atype := a.atype, completeDate := none,
      username := "", due := some a.due, status := a.status, oid := newOid })
  let afterUpd := w.woUpdates.foldl (fun wos u =>
    wos.map (fun o => if o.oid == u.oid then { o with status := u.status } else o)) afterAdds
  let afterOp := w.opAssetUpdates.foldl (fun as u =>
    as.map (fun a => if a.hazardId == some u.hazardId then
      { a with lastOp := some u.lastInspect, nextOp := some u.nextInspect } else a)) st.assets
  let afterPe := w.peAssetUpdates.foldl (fun as u =>
    as.map (fun a => if a.hazardId == some u.hazardId then
      { a with lastPe := some u.lastInspect, nextPe := some u.nextInspect } else a)) afterOp
  { assets := afterPe, workOrders := afterUpd }

/-! ## Archive clean-up (`cleanUp`) -/

/-- A file in the archive folder: its base name and its creation time. -/
structure AFile where
  name : String
  ctime : Int
deriving DecidableEq, Repr

/-- One step of Python `min(files, key = path.getctime)`: keep the earlier
file on ties, replace only on a strictly smaller creation time. -/
def minStep : Option AFile → AFile → Option AFile
  | none, f => some f
  | some g, f => if f.ctime < g.ctime then some f else some g

/-- Python `min(files, key = path.getctime)`: scan left to right, keep the
first file with the smallest creation time; `none` on an empty list
(`ValueError`). -/
def oldestByCtime (l : List AFile) : Option AFile :=
  l.foldl minStep none

/-- `f.endswith('.xlsx')`, computed on the character list (the string API is
opaque to kernel evaluation). -/
def endsWithXlsx (s : String) : Bool := ".xlsx".data.isSuffixOf s.data

/-- `cleanUp` (legacy lines 702-720 = unified lines 597-615): move the
workbook into the archive folder; if the folder then holds more than 8
entries, find the `.xlsx` with the oldest creation time and delete it unless
it is the workbook just moved.  Returns the resulting folder contents and the
deleted file, or `none` when `min([])` raises (no `.xlsx` present at all). -/
def cleanUp (archive : List AFile) (wb : AFile) :
    Option (List AFile × Option AFile) :=
  let moved := archive ++ [wb]
  if 8 < moved.length then
    match oldestByCtime (moved.filter (fun f => endsWithXlsx f.name)) with
    | none => none
    | some oldest =>
      if oldest.name ≠ wb.name then
        (some (moved.eraseP (fun f => f.name == oldest.name), some oldest))
      else some (moved, none)
  else some (moved, none)

/-! ## The unified whole-run engine and its store -/

/-- A raw unified work-order point feature (the `work_orders_lyr` features read
at lines 217-230 and edited in place by `updateServices`). -/
structure URawWOPoint where
  /-- `RELAssetID` (nullable). -/
  relAssetId : Option Int
  /-- `AssignmentType`. -/
  atype : String
  /-- `username`. -/
  username : String
  /-- `AssignmentDueDate` (nullable). -/
  due : Option Int
  /-- `AssignmentStatus`. -/
  status : String
  /-- `LastInspect` (nullable). -/
  lastInspect : Option Int
  /-- `created_date` (nullable). -/
  created : Option Int
  /-- `NextInspection` (nullable), written by the engine's edits. -/
  nextInspection : Option Int
  /-- `GlobalID`. -/
  globalId : String
  /-- `OBJECTID`. -/
  oid : Int
deriving DecidableEq, Repr

/-- A raw unified work-order table row (the `work_orders_tbl` features read at
lines 203-215; the table is never written by the engine). -/
structure URawTableRow where
  /-- `GlobalID` (the dictionary key). -/
  globalId : String
  username : String
  /-- `AssignmentStatus`. -/
  status : String
  /-- `AssignmentType`. -/
  atype : String
  /-- `AssignmentDueDate` (nullable). -/
  due : Option Int
  /-- `LastInspect` (nullable). -/
  lastInspect : Option Int
  /-- `RELAssetID` (nullable). -/
  relAssetId : Option Int
  /-- `created_date`. -/
  created : Int
  /-- `OBJECTID`. -/
  oid : Int
deriving DecidableEq, Repr

/-- The remote store the unified run reads its snapshot from. -/
structure UnifiedStore where
  assets : List URawAsset
  woPoints : List URawWOPoint
  woTable : List URawTableRow
deriving DecidableEq, Repr

/-- The unified asset-dictionary entry together with the asset's `EquipType`
(index 0 of the stored list, needed for the `asset_name_dict` reverse lookup of
line 289): the admission logic is exactly `unifiedAssetEntry`. -/
def unifiedAssetEntryWithType (a : URawAsset) :
    Option (Int × (String × UAsset)) :=
  (unifiedAssetEntry a).map (fun p => (p.1, (a.equipType, p.2)))

/-- `wo_table_dict` (lines 203-215): every table row, keyed by `GlobalID` in
feature order. -/
def buildWOTableDict (rows : List URawTableRow) : List (String × TRow) :=
  rows.map (fun o => (o.globalId,
    { username := o.username, status := o.status, atype := o.atype,
      due := o.due, lastInspect := o.lastInspect, relAssetId := o.relAssetId,
      created := o.created, oid := o.oid }))

/-- `work_orders_dict` (lines 217-230): work-order points whose `RELAssetID`
is a key of `asset_dict`, keyed by `RELAssetID` (a later binding overwrites an
earlier one). -/
def buildWOPointsDict (points : List URawWOPoint)
    (assetDict : List (Int × (String × UAsset))) : List (Int × UWOPoint) :=
  points.filterMap (fun o =>
    match o.relAssetId with
    | some rid =>
      if (assetDict.map (fun p => p.1)).contains rid then
        some (rid, { due := o.due, status := o.status, oid := o.oid })
      else none
    | none => none)

/-- The snapshot the unified `buildQueryDictionaries` hands to `updateServices`. -/
structure UnifiedSnapshot where
  assetDict : List (Int × (String × UAsset))
  woTableDict : List (String × TRow)
  woPointsDict : List (Int × UWOPoint)
deriving DecidableEq, Repr

/-- `buildQueryDictionaries` for the unified store. -/
def unifiedSnap (st : UnifiedStore) : UnifiedSnapshot :=
  let d := st.assets.filterMap unifiedAssetEntryWithType
  { assetDict := d,
    woTableDict := buildWOTableDict st.woTable,
    woPointsDict := buildWOPointsDict st.woPoints d }

/-- The three whole-run report dictionaries of the unified `updateServices`
(`wb_upcoming`, `wb_completed`, `wb_overdue`), keyed by asset id; the
per-category worksheets of lines 524-552 are a pure regrouping of these. -/
structure UnifiedBuckets where
  upcoming : List (Int × UpRow) := []
  completed : List (Int × UComRow) := []
  overdue : List (Int × OverRow) := []
deriving DecidableEq, Repr

/-- All external writes a unified run performs (work-order point edits and
asset-layer edits; the work-order table is never written). -/
structure UnifiedWrites where
  woUpdates : List UWoUpdate := []
  assetUpdates : List UAssetUpdate := []
deriving DecidableEq, Repr

/-- `asset_name_dict` (lines 241-246): maps `EquipType` to the asset-layer
index; `none` models the `KeyError` of `asset_name_dict[asset_type]` at line
289 for any other type. -/
def assetNameIndex (t : String) : Option Int :=
  if t = "Crane" then some 0
  else if t = "Extinguisher" then some 1
  else if t = "Eyewash" then some 2
  else if t = "Forklift" then some 3
  else none

/-- The unified `updateServices` over a whole snapshot: loop over `asset_dict`
in insertion order, resolve the asset layer from `EquipType` (line 289), run
the per-asset step, and accumulate the report dictionaries and the writes.
The mid-run `work_orders_tbl.query("GlobalID = ...")` of line 335 reads the
table, which the run never writes, so reading the snapshot's table dictionary
is faithful.  An uncaught exception aborts the run. -/
def runUnified (s : UnifiedSnapshot) (today : Int) :
    Except Crash (UnifiedBuckets × UnifiedWrites) :=
  (dictKeys s.assetDict).foldlM (fun (acc : UnifiedBuckets × UnifiedWrites) k => do
    let (b, w) := acc
    match dictLookup s.assetDict k with
    | none => pure (b, w)
    | some (ty, a) =>
      match assetNameIndex ty with
      | none => .error .keyError
      | some _ =>
        let e ← unifiedStep a (dictLookup s.woPointsDict a.assetId)
          s.woTableDict today
        let addRow {α} (l : List (Int × α)) : Option α → List (Int × α)
          | some r => l ++ [(k, r)]
          | none => l
        pure
          ({ upcoming := addRow b.upcoming e.upcoming,
             completed := addRow b.completed e.completed,
             overdue := addRow b.overdue e.overdue },
           { woUpdates := w.woUpdates ++ e.woUpdates,
             assetUpdates := w.assetUpdates ++ e.assetUpdates }))
    (({} : UnifiedBuckets), ({} : UnifiedWrites))

/-- Apply the unified run's writes back to the store: work-order point edits
update the matching `OBJECTID` in place (a `wo_edit` without an
`AssignmentStatus` key leaves the status unchanged), asset edits update the
matching `OBJECTID`'s date fields; the table is untouched. -/
def applyUnifiedWrites (st : UnifiedStore) (w : UnifiedWrites) : UnifiedStore :=
  let pts := w.woUpdates.foldl (fun ps u =>
    ps.map (fun o => if o.oid == u.oid then
      { o with status := u.status.getD o.status,
               nextInspection := some u.nextInspect,
               lastInspect := u.lastInspect } else o)) st.woPoints
  let as := w.assetUpdates.foldl (fun xs u =>
    xs.map (fun a => if a.oid == u.oid then
      { a with nextInspection := some u.nextInspect,
               lastInspect := some u.lastInspect } else a)) st.assets
  { assets := as, woPoints := pts, woTable := st.woTable }

/-! ## Theorems -/

deriving instance DecidableEq for Except

/-- **C1, counterexample.**  The claim fails on both scripts.
Legacy: with no correlated work order and a due date 100 days in the future
(`days_until_due = 100 > 40`), the engine still appends an Upcoming row and
inserts a work order — line 269 computes `(today - duedate).days`, which is
negative for any future due date, so `days_till_due <= 40` holds.
Unified: with no correlated work-order point and a due date 10 days out
(`days_till_due = 11`, within the window), the engine appends an Upcoming row
but inserts no work order at all (lines 301-317 perform no `edit_features`). -/
theorem c1_counterexample :
    (pyDays 8640000000 0 = 100 ∧ 40 < (100 : Int) ∧
      legacyStep 40 1 (some 8640000000) 30 (some "WWS Operator Inspection") "g"
        none 0 okOracle =
      .ok { upcoming := some { due := 8640000000 },
            woAdds := [{ status := "Assigned", atype := "WWS Operator Inspection",
                         due := 8640000000, hazardId := 1, geom := "g" }] }) ∧
    (pyDays 864000000 0 + 1 = 11 ∧ (0 : Int) ≤ 11 ∧ (11 : Int) ≤ 60 ∧
      unifiedStep { assetId := 1, nextInsp := 864000000, lastInsp := none,
                    interval := "Weekly", oid := 1 } none [] 0 =
      .ok { upcoming := some { due := 864000000 } }) := by
  exact ⟨⟨by decide, by decide, by decide⟩, by decide, by decide, by decide, by decide⟩

/-- **C1, amended.**  With no correlated work order:
the legacy engine appends one Upcoming row and inserts one work order
(status Assigned, due = the asset's due date, geometry copied) whenever
`(today - due).days <= lead_window` — i.e. for every future due date and for
due dates up to `lead_window` days in the past — and does nothing otherwise;
the unified engine appends one Upcoming row when
`0 <= days_until_due <= 60` (with `days_until_due = (due - today).days + 1`),
one Overdue row when `days_until_due < 0`, and never inserts a work order. -/
theorem c1_amended :
    (∀ (lead hid due freq today : Int) (ty g : String),
      legacyStep lead hid (some due) freq (some ty) g none today okOracle =
        if pyDays today due ≤ lead then
          .ok { upcoming := some { due := due },
                woAdds := [{ status := "Assigned", atype := ty, due := due,
                             hazardId := hid, geom := g }] }
        else .ok {}) ∧
    (∀ (a : UAsset) (tbl : List (String × TRow)) (today : Int),
      unifiedStep a none tbl today =
        if 0 ≤ pyDays a.nextInsp today + 1 ∧ pyDays a.nextInsp today + 1 ≤ 60 then
          .ok { upcoming := some { due := a.nextInsp } }
        else if pyDays a.nextInsp today + 1 < 0 then
          .ok { overdue := some { due := a.nextInsp,
                                  daysOverdue := -(pyDays a.nextInsp today + 1) } }
        else .ok {}) := by
  constructor
  · intro lead hid due freq today ty g
    by_cases h : pyDays today due ≤ lead <;>
      simp [legacyStep, okOracle, attachPhase, h]
  · intro a tbl today
    simp only [unifiedStep]

/-- **C2, counterexample.**  Legacy script, completed work order: the asset's
next-inspection field is updated to `op_next_insp + op_freq*86400000`
(line 343: the *previous due date* plus the interval), not to
`completion_date + interval`.  Concretely: due = 0, freq = 30 days, completion
date = 3 days after the due date; the engine writes next = 2592000000
(= due + 30 days), while the claim demands 259200000 + 2592000000. -/
theorem c2_counterexample :
    legacyStep 40 1 (some 0) 30 (some "WWS Operator Inspection") "g"
      (some { status := "Completed", completeDate := some 259200000,
              assignedTo := "w", due := some 0, oid := 5 }) 0 okOracle =
      .ok { upcoming := some { due := 2592000000 },
            completed := some { completeDate := 259200000 },
            woAdds := [{ status := "Assigned", atype := "WWS Operator Inspection",
                         due := 2592000000, hazardId := 1, geom := "g" }],
            assetUpdates := [{ hazardId := 1, lastInspect := 259200000,
                               nextInspect := 2592000000 }] } ∧
    (2592000000 : Int) ≠ 259200000 + 30 * dayMs := by
  exact ⟨by decide, by decide⟩

/-- **C2, amended.**  When the correlated work order is completed, the legacy
engine always (in both window branches) performs exactly one asset update with
last-inspection = the work order's completion date and next-inspection =
the asset's *previous due date* + interval (not completion + interval); the
unified engine's completed branch always performs exactly one asset update with
last-inspection = the completion reference (`created_date` of the most recent
table row) and next-inspection = `created_date` + interval duration (for a
named interval other than End of Month). -/
theorem c2_amended :
    (∀ (lead hid due freq today : Int) (ty g : String) (w : LegacyWO) (cd : Int),
      w.status = "Completed" → w.completeDate = some cd →
      ∃ e, legacyStep lead hid (some due) freq (some ty) g (some w) today okOracle = .ok e ∧
        e.assetUpdates = [{ hazardId := hid, lastInspect := cd,
                            nextInspect := due + freq * dayMs }] ∧
        e.completed = some { completeDate := cd }) ∧
    (∀ (a : UAsset) (w : UWOPoint) (mr : TRow) (dur : Int),
      inspIntervalDuration a.interval = some dur → a.interval ≠ "End of Month" →
      (unifiedCompleted a w mr).assetUpdates =
        [{ oid := a.oid, nextInspect := mr.created + dur, lastInspect := mr.created }]) := by
  constructor
  · intro lead hid due freq today ty g w cd hs hc
    by_cases h : pyDays (due + freq * dayMs) due ≤ lead <;>
      simp [legacyStep, okOracle, attachPhase, hs, hc, h]
  · intro a w mr dur hdur hne
    simp [unifiedCompleted, hdur, hne]

/-- **C2, witness.**  The amended statement at a concrete input: legacy
completion 3 days after the old due date, and a unified Weekly completion. -/
theorem c2_amended_witness :
    (∃ e, legacyStep 40 1 (some 0) 30 (some "WWS Operator Inspection") "g"
      (some { status := "Completed", completeDate := some 259200000,
              assignedTo := "w", due := some 0, oid := 5 }) 0 okOracle = .ok e ∧
      e.assetUpdates = [{ hazardId := 1, lastInspect := 259200000,
                          nextInspect := 0 + 30 * dayMs }] ∧
      e.completed = some { completeDate := 259200000 }) ∧
    (unifiedCompleted
        { assetId := 1, nextInsp := 0, lastInsp := none, interval := "Weekly", oid := 9 }
        { due := some 0, status := "Assigned", oid := 3 }
        { username := "u", status := "Assigned", atype := "t", due := some 0,
          lastInspect := some 5, relAssetId := some 1, created := 777, oid := 4 }).assetUpdates =
      [{ oid := 9, nextInspect := 777 + 604800000, lastInspect := 777 }] := by
  refine ⟨c2_amended.1 40 1 0 30 0 "WWS Operator Inspection" "g" _ 259200000 rfl rfl, ?_⟩
  exact c2_amended.2 { assetId := 1, nextInsp := 0, lastInsp := none,
                       interval := "Weekly", oid := 9 }
    { due := some 0, status := "Assigned", oid := 3 }
    { username := "u", status := "Assigned", atype := "t", due := some 0,
      lastInspect := some 5, relAssetId := some 1, created := 777, oid := 4 }
    604800000 (by decide) (by decide)

/-- The legacy renewal comparison `(next_due_date - duedate).days` (lines 345/548)
equals the interval length in days, independently of today. -/
theorem legacy_renewal_days_eq_freq (due freq : Int) :
    pyDays (due + freq * dayMs) due = freq := by
  have h : due + freq * dayMs - due = freq * dayMs := by ring
  rw [pyDays, h, dayMs]
  exact Int.mul_fdiv_cancel freq (by norm_num)

/-- **C3, counterexample.**  Legacy script, completed work order with a
60-day interval, today 55 days after the old due date: the recomputed
days-until-due against `next_due` is `(next_due - today).days = 5`, well
within the 40-day window, yet the engine emits no Upcoming row and inserts
nothing — line 345 compares `(next_due_date - duedate).days` (= the interval
length, 60) to the window, not the distance from today.  Unified script: the
completed branch (lines 390-454) emits a Completed row and marks the point
`Completed`, but never emits an Upcoming row nor any `Assigned` work order,
even though the new cycle is 1 day out. -/
theorem c3_counterexample :
    (pyDays 5184000000 4752000000 = 5 ∧ (5 : Int) ≤ 40 ∧
      legacyStep 40 1 (some 0) 60 (some "WWS Operator Inspection") "g"
        (some { status := "Completed", completeDate := some 4665600000,
                assignedTo := "w", due := some 0, oid := 5 }) 4752000000 okOracle =
      .ok { completed := some { completeDate := 4665600000 },
            assetUpdates := [{ hazardId := 1, lastInspect := 4665600000,
                               nextInspect := 5184000000 }] }) ∧
    (pyDays 86400100 0 + 1 = 2 ∧ (2 : Int) ≤ 60 ∧
      unifiedStep { assetId := 1, nextInsp := 0, lastInsp := none,
                    interval := "Daily", oid := 9 }
        (some { due := some 0, status := "Assigned", oid := 3 })
        [("G", { username := "u", status := "Completed", atype := "t",
                 due := some 0, lastInspect := some 10, relAssetId := some 1,
                 created := 100, oid := 4 })] 0 =
      .ok { completed := some { completedDate := 100, nextDue := 86400100 },
            woUpdates := [{ oid := 3, status := some "Completed",
                            nextInspect := 86400100, lastInspect := some 100 }],
            assetUpdates := [{ oid := 9, nextInspect := 86400100,
                               lastInspect := 100 }] }) := by
  exact ⟨⟨by decide, by decide, by decide⟩, by decide, by decide, by decide⟩

/-- **C3, amended.**  After marking a correlated work order completed, the
legacy engine compares `(next_due - previous_due).days` — which is the
interval length in days, independent of today — to the lead window: when
`freq <= lead_window` it emits an Upcoming row and inserts a new work order
(status Assigned, due = next_due) in addition to the asset-field update,
otherwise only the asset-field update happens.  The unified completed branch
performs no window recomputation at all: it never emits an Upcoming row and
its only work-order edit sets status Completed. -/
theorem c3_amended :
    (∀ (lead hid due freq today : Int) (ty g : String) (w : LegacyWO) (cd : Int),
      w.status = "Completed" → w.completeDate = some cd →
      legacyStep lead hid (some due) freq (some ty) g (some w) today okOracle =
        if freq ≤ lead then
          .ok { upcoming := some { due := due + freq * dayMs },
                completed := some { completeDate := cd },
                woAdds := [{ status := "Assigned", atype := ty,
                             due := due + freq * dayMs, hazardId := hid, geom := g }],
                assetUpdates := [{ hazardId := hid, lastInspect := cd,
                                   nextInspect := due + freq * dayMs }] }
        else
          .ok { completed := some { completeDate := cd },
                assetUpdates := [{ hazardId := hid, lastInspect := cd,
                                   nextInspect := due + freq * dayMs }] }) ∧
    (∀ (a : UAsset) (w : UWOPoint) (mr : TRow),
      (unifiedCompleted a w mr).upcoming = none ∧
      ∃ nd, (unifiedCompleted a w mr).woUpdates =
        [{ oid := w.oid, status := some "Completed", nextInspect := nd,
           lastInspect := some mr.created }]) := by
  constructor
  · intro lead hid due freq today ty g w cd hs hc
    have hk := legacy_renewal_days_eq_freq due freq
    by_cases h : freq ≤ lead <;>
      simp [legacyStep, okOracle, attachPhase, hs, hc, hk, h]
  · intro a w mr
    exact ⟨rfl, _, rfl⟩

/-- **C3, witness.**  The amended statement at a concrete input (legacy with a
60-day interval beyond the 40-day window; unified completed branch). -/
theorem c3_amended_witness :
    (legacyStep 40 1 (some 0) 60 (some "WWS Operator Inspection") "g"
      (some { status := "Completed", completeDate := some 4665600000,
              assignedTo := "w", due := some 0, oid := 5 }) 4752000000 okOracle =
        if (60 : Int) ≤ 40 then
          .ok { upcoming := some { due := 0 + 60 * dayMs },
                completed := some { completeDate := 4665600000 },
                woAdds := [{ status := "Assigned", atype := "WWS Operator Inspection",
                             due := 0 + 60 * dayMs, hazardId := 1, geom := "g" }],
                assetUpdates := [{ hazardId := 1, lastInspect := 4665600000,
                                   nextInspect := 0 + 60 * dayMs }] }
        else
          .ok { completed := some { completeDate := 4665600000 },
                assetUpdates := [{ hazardId := 1, lastInspect := 4665600000,
                                   nextInspect := 0 + 60 * dayMs }] }) ∧
    ((unifiedCompleted
        { assetId := 1, nextInsp := 0, lastInsp := none, interval := "Daily", oid := 9 }
        { due := some 0, status := "Assigned", oid := 3 }
        { username := "u", status := "Completed", atype := "t", due := some 0,
          lastInspect := some 10, relAssetId := some 1, created := 100,
          oid := 4 }).upcoming = none) := by
  constructor
  · exact c3_amended.1 40 1 0 60 4752000000 "WWS Operator Inspection" "g" _ 4665600000 rfl rfl
  · exact (c3_amended.2 { assetId := 1, nextInsp := 0, lastInsp := none,
                          interval := "Daily", oid := 9 }
      { due := some 0, status := "Assigned", oid := 3 }
      { username := "u", status := "Completed", atype := "t", due := some 0,
        lastInspect := some 10, relAssetId := some 1, created := 100, oid := 4 }).1

/-- **C5, counterexample.**  Unified script, not-completed situation (work
order point exists, no table row): the asset's next inspection — equal to the
work-order due date — is exactly one day before today, so the due date is
strictly in the past, yet `days_till_due = (due - today).days + 1 = 0` sends
the engine down the *upcoming* branch: it appends an Upcoming row (no Overdue
row) and sets the work-order status to `Assigned` (the claim requires an
Overdue row with `days_overdue = 1`, a status update to Overdue, and no status
change in the upcoming case). -/
theorem c5_counterexample :
    (0 : Int) < 86400000 ∧ pyDays 86400000 0 = 1 ∧
    unifiedStep { assetId := 1, nextInsp := 0, lastInsp := none,
                  interval := "Weekly", oid := 9 }
      (some { due := some 0, status := "Assigned", oid := 7 }) [] 86400000 =
    .ok { upcoming := some { due := 0 },
          woUpdates := [{ oid := 7, status := some "Assigned",
                          nextInspect := 0, lastInspect := none }] } := by
  exact ⟨by decide, by decide, by decide⟩

/-- **C5, amended.**  Legacy engine: exactly as the claim states — with a
not-completed correlated work order, due date strictly before today yields one
Overdue row with `days_overdue = (today - due).days` and one in-place status
update to Overdue; otherwise one Upcoming row and no work-order write.
Unified engine: the not-completed branches ignore the work-order due date and
instead compute `days_till_due = (asset.next_insp - today).days + 1`; they
append an Overdue row (with `days_overdue = -days_till_due`) and set status
Overdue only when `days_till_due < 0`, append an Upcoming row *and set status
Assigned* when `0 <= days_till_due <= 60`, and (in the no-table-row branch)
copy the schedule fields without any report row when `days_till_due > 60`. -/
theorem c5_amended :
    (∀ (lead hid due freq today : Int) (ty g : String) (w : LegacyWO) (wdue : Int),
      w.status ≠ "Completed" → w.due = some wdue →
      legacyStep lead hid (some due) freq (some ty) g (some w) today okOracle =
        if wdue < today then
          .ok { overdue := some { due := wdue, daysOverdue := pyDays today wdue },
                woUpdates := [{ oid := w.oid, status := "Overdue" }] }
        else .ok { upcoming := some { due := wdue } }) ∧
    (∀ (a : UAsset) (w : UWOPoint) (tbl : List (String × TRow)) (today : Int),
      (tbl.map (fun p => p.2.relAssetId)).contains (some a.assetId) = false →
      unifiedStep a (some w) tbl today =
        (if 0 ≤ pyDays a.nextInsp today + 1 ∧ pyDays a.nextInsp today + 1 ≤ 60 then
          .ok { upcoming := some { due := a.nextInsp },
                woUpdates := [{ oid := w.oid, status := some "Assigned",
                                nextInspect := a.nextInsp, lastInspect := a.lastInsp }] }
        else if pyDays a.nextInsp today + 1 < 0 then
          .ok { overdue := some { due := a.nextInsp,
                                  daysOverdue := -(pyDays a.nextInsp today + 1) },
                woUpdates := [{ oid := w.oid, status := some "Overdue",
                                nextInspect := a.nextInsp, lastInspect := a.lastInsp }] }
        else if 60 < pyDays a.nextInsp today + 1 then
          .ok { woUpdates := [{ oid := w.oid, status := none,
                                nextInspect := a.nextInsp, lastInspect := a.lastInsp }] }
        else .ok {})) ∧
    (∀ (a : UAsset) (w : UWOPoint) (tbl : List (String × TRow)) (today : Int)
        (mr : TRow) (li : Int),
      (tbl.map (fun p => p.2.relAssetId)).contains (some a.assetId) = true →
      lookupGid (mostRecentWoGid a.assetId tbl) tbl = some mr →
      a.lastInsp = some li → mr.created ≤ li →
      unifiedStep a (some w) tbl today =
        (if 0 ≤ pyDays a.nextInsp today + 1 ∧ pyDays a.nextInsp today + 1 ≤ 60 then
          .ok { upcoming := some { due := a.nextInsp },
                woUpdates := [{ oid := w.oid, status := some "Assigned",
                                nextInspect := a.nextInsp, lastInspect := a.lastInsp }] }
        else if pyDays a.nextInsp today + 1 < 0 then
          .ok { overdue := some { due := a.nextInsp,
                                  daysOverdue := -(pyDays a.nextInsp today + 1) },
                woUpdates := [{ oid := w.oid, status := some "Overdue",
                                nextInspect := a.nextInsp, lastInspect := a.lastInsp }] }
        else .ok {})) := by
  refine ⟨?_, ?_, ?_⟩
  · intro lead hid due freq today ty g w wdue hs hd
    by_cases h : wdue < today <;>
      simp [legacyStep, okOracle, hs, hd, h]
  · intro a w tbl today hc
    simp only [unifiedStep]
    rw [if_neg (by rw [hc]; exact Bool.false_ne_true)]
  · intro a w tbl today mr li hc hmr hl hle
    simp only [unifiedStep, hmr, hl]
    rw [if_pos hc, if_pos (decide_eq_true hle)]

/-- **C5, witness.**  The amended statement at concrete inputs: the legacy
scenario of the spec (due 5 days ago, Assigned work order, 5 days overdue),
a unified no-table-row asset due one day ago, and a unified outdated-row
asset due 45 days out. -/
theorem c5_amended_witness :
    (legacyStep 40 1 (some 432000000) 30 (some "WWS Operator Inspection") "g"
      (some { status := "Assigned", completeDate := none, assignedTo := "w",
              due := some 0, oid := 5 }) 432000000 okOracle =
        if (0 : Int) < 432000000 then
          .ok { overdue := some { due := 0, daysOverdue := pyDays 432000000 0 },
                woUpdates := [{ oid := 5, status := "Overdue" }] }
        else .ok { upcoming := some { due := 0 } }) ∧
    (unifiedStep { assetId := 1, nextInsp := 0, lastInsp := none,
                   interval := "Weekly", oid := 9 }
      (some { due := some 0, status := "Assigned", oid := 7 }) [] 86400000 =
        if 0 ≤ pyDays 0 86400000 + 1 ∧ pyDays 0 86400000 + 1 ≤ 60 then
          .ok { upcoming := some { due := 0 },
                woUpdates := [{ oid := 7, status := some "Assigned",
                                nextInspect := 0, lastInspect := none }] }
        else if pyDays 0 86400000 + 1 < 0 then
          .ok { overdue := some { due := 0, daysOverdue := -(pyDays 0 86400000 + 1) },
                woUpdates := [{ oid := 7, status := some "Overdue",
                                nextInspect := 0, lastInspect := none }] }
        else if 60 < pyDays 0 86400000 + 1 then
          .ok { woUpdates := [{ oid := 7, status := none,
                                nextInspect := 0, lastInspect := none }] }
        else .ok {}) := by
  constructor
  · exact c5_amended.1 40 1 432000000 30 432000000 "WWS Operator Inspection" "g"
      _ 0 (by decide) rfl
  · exact c5_amended.2.1 { assetId := 1, nextInsp := 0, lastInsp := none,
                           interval := "Weekly", oid := 9 }
      { due := some 0, status := "Assigned", oid := 7 } [] 86400000 rfl

/-- Every month has at least one day. -/
theorem one_le_daysInMonth (y m : Int) : 1 ≤ daysInMonth y m := by
  unfold daysInMonth
  split_ifs <;> norm_num

/-- The calendar-day successor preserves validity. -/
theorem nextDay_valid (x : Date) (h : x.Valid) : (nextDay x).Valid := by
  obtain ⟨hm1, hm2, hd1, hd2⟩ := h
  unfold nextDay
  split_ifs with ha hb
  · exact ⟨hm1, hm2, show (1 : Int) ≤ x.day + 1 by omega,
      show x.day + 1 ≤ daysInMonth x.year x.month by omega⟩
  · exact ⟨show (1 : Int) ≤ x.month + 1 by omega, show x.month + 1 ≤ 12 by omega,
      le_refl 1, one_le_daysInMonth x.year (x.month + 1)⟩
  · exact ⟨by norm_num, by norm_num, le_refl 1, one_le_daysInMonth (x.year + 1) 1⟩

/-- `timedelta(days = n)` addition preserves validity. -/
theorem addDaysCiv_valid : ∀ (n : Nat) (x : Date), x.Valid → (addDaysCiv x n).Valid
  | 0, _, h => h
  | n + 1, x, h => addDaysCiv_valid n (nextDay x) (nextDay_valid x h)

set_option maxHeartbeats 1600000 in
/-- The `replace(day=28) + 4 days - next_month.day days` dance of lines 395-397
lands exactly on the last calendar day of the month of its input. -/
theorem eomAdjust_eq_monthEnd (y m d : Int) (h1 : 1 ≤ m) (h2 : m ≤ 12) :
    eomAdjust ⟨y, m, d⟩ = monthEnd ⟨y, m, d⟩ := by
  interval_cases m <;>
    rcases Bool.eq_false_or_eq_true (isLeap y) with hb | hb <;>
      norm_num [eomAdjust, addDaysCiv, nextDay, subDaysCiv, prevDay,
        daysInMonth, monthEnd, hb]

set_option maxRecDepth 4000 in
/-- **C4, counterexample.**  "End of Month" resolution for a completion on
2022-01-01 yields 2022-01-31 — the last day of the *same* month — not
2022-02-28, the last day of the month following the completion reference, as
the claim requires.  (The engine adds 28 days and snaps to that month's end;
for an early-month completion the 28-day step stays inside the month.)
The millisecond-level conjunct evaluates the resolution exactly as used in the
unified `updateServices`: `created_date` 2022-01-01T00:00Z resolves to
2022-01-31T00:00Z. -/
theorem c4_counterexample :
    eomResolve ⟨2022, 1, 1⟩ = ⟨2022, 1, 31⟩ ∧
    monthEnd ⟨2022, 2, 1⟩ = ⟨2022, 2, 28⟩ ∧
    eomResolve ⟨2022, 1, 1⟩ ≠ monthEnd ⟨2022, 2, 1⟩ ∧
    eomFromCreatedMs 1640995200000 = 1643587200000 ∧
    dateOfMs 1643587200000 = ⟨2022, 1, 31⟩ := by
  exact ⟨by decide, by decide, by decide, by decide, by decide⟩

set_option maxRecDepth 4000 in
/-- **C4, amended.**  For every valid completion reference date, "End of
Month" resolves to the last calendar day of the month *containing the date 28
days after* the completion reference (2419200000 ms = 28 days).  This is the
month following the completion only when the 28-day step crosses a month
boundary — e.g. completion Jan 31 resolves to Feb 28/29 as the claim's example
states, but completion Jan 1 resolves to Jan 31. -/
theorem c4_amended (c : Date) (h : c.Valid) :
    eomResolve c = monthEnd (addDaysCiv c 28) := by
  have hv := addDaysCiv_valid 28 c h
  exact eomAdjust_eq_monthEnd (addDaysCiv c 28).year (addDaysCiv c 28).month
    (addDaysCiv c 28).day hv.1 hv.2.1

set_option maxRecDepth 4000 in
/-- **C4, witness.**  The amended statement at the claim's own example:
completion 2022-01-31 resolves to 2022-02-28 (= the month end of Feb 28, the
date 28 days later). -/
theorem c4_amended_witness :
    Date.Valid ⟨2022, 1, 31⟩ ∧
    eomResolve ⟨2022, 1, 31⟩ = monthEnd (addDaysCiv ⟨2022, 1, 31⟩ 28) ∧
    eomResolve ⟨2022, 1, 31⟩ = ⟨2022, 2, 28⟩ := by
  exact ⟨by decide, c4_amended ⟨2022, 1, 31⟩ (by decide), by decide⟩

/-- **C6, counterexample.**  Two table rows for asset 1: row "A" has a null
`LastInspect`, row "B" has timestamp 100.  Examined in the order A then B, the
selection is "B", not the null row "A" — the claim that a null-timestamp row is
selected "regardless of the timestamps of the other candidate rows and of the
order in which rows are examined" is false.  In the reverse order the null row
wins, so the selection depends on examination order. -/
theorem c6_counterexample :
    mostRecentWoGid 1
      [("A", { username := "", status := "", atype := "", due := none,
               lastInspect := none, relAssetId := some 1, created := 0, oid := 1 }),
       ("B", { username := "", status := "", atype := "", due := none,
               lastInspect := some 100, relAssetId := some 1, created := 0, oid := 2 })] = "B" ∧
    mostRecentWoGid 1
      [("B", { username := "", status := "", atype := "", due := none,
               lastInspect := some 100, relAssetId := some 1, created := 0, oid := 2 }),
       ("A", { username := "", status := "", atype := "", due := none,
               lastInspect := none, relAssetId := some 1, created := 0, oid := 1 })] = "A" ∧
    ("B" : String) ≠ "A" := by
  exact ⟨by decide, by decide, by decide⟩

/-- A candidate row with a null timestamp that is examined last is always the
final selection (it overwrites `most_recent_wo_globalid` without raising
`latest_date`, and nothing follows it). -/
theorem mostRecentScan_last_null (aid : Int) (gid : String) (row : TRow)
    (hrel : row.relAssetId = some aid) (hnull : row.lastInspect = none) :
    ∀ (xs : List (String × TRow)) (acc : Int × String),
      (mostRecentScan aid (xs ++ [(gid, row)]) acc).2 = gid := by
  intro xs
  induction xs with
  | nil =>
    intro acc
    obtain ⟨l, m⟩ := acc
    simp [mostRecentScan, hrel, hnull]
  | cons p rest ih =>
    intro acc
    obtain ⟨l, m⟩ := acc
    obtain ⟨g2, r2⟩ := p
    by_cases h1 : r2.relAssetId = some aid
    · cases hr2 : r2.lastInspect with
      | some dd =>
        by_cases h2 : l < dd <;> simp [mostRecentScan, h1, hr2, h2, ih]
      | none => simp [mostRecentScan, h1, hr2, ih]
    · simp [mostRecentScan, h1, ih]

/-- Invariant of the most-recent scan when every candidate row has a non-null
timestamp: either nothing beat the running maximum and the accumulator is
returned unchanged, or the result is a candidate row whose timestamp is the
running maximum and bounds every candidate timestamp. -/
theorem mostRecentScan_max_inv (aid : Int) :
    ∀ (tbl : List (String × TRow)) (latest : Int) (mr : String),
      (∀ p ∈ tbl, p.2.relAssetId = some aid → p.2.lastInspect.isSome) →
      ((mostRecentScan aid tbl (latest, mr) = (latest, mr) ∧
        ∀ p ∈ tbl, p.2.relAssetId = some aid → ∀ t, p.2.lastInspect = some t → t ≤ latest)
       ∨ (∃ g r, (g, r) ∈ tbl ∧ r.relAssetId = some aid ∧
            r.lastInspect = some (mostRecentScan aid tbl (latest, mr)).1 ∧
            (mostRecentScan aid tbl (latest, mr)).2 = g ∧
            latest < (mostRecentScan aid tbl (latest, mr)).1 ∧
            ∀ p ∈ tbl, p.2.relAssetId = some aid → ∀ t, p.2.lastInspect = some t →
              t ≤ (mostRecentScan aid tbl (latest, mr)).1)) := by
  intro tbl
  induction tbl with
  | nil =>
    intro latest mr _
    left
    exact ⟨rfl, by simp⟩
  | cons p rest ih =>
    intro latest mr hall
    obtain ⟨g2, r2⟩ := p
    have hallr : ∀ q ∈ rest, q.2.relAssetId = some aid → q.2.lastInspect.isSome :=
      fun q hq => hall q (List.mem_cons_of_mem _ hq)
    by_cases h1 : r2.relAssetId = some aid
    · cases hr2 : r2.lastInspect with
      | none =>
        have := hall (g2, r2) (List.mem_cons_self _ _) h1
        rw [hr2] at this
        simp at this
      | some dd =>
        by_cases h2 : latest < dd
        · have hstep : mostRecentScan aid ((g2, r2) :: rest) (latest, mr) =
              mostRecentScan aid rest (dd, g2) := by
            simp [mostRecentScan, h1, hr2, h2]
          rw [hstep]
          rcases ih dd g2 hallr with ⟨heq, hbound⟩ | ⟨g, r, hmem, hrel, hti, hsel, hlt, hbound⟩
          · right
            refine ⟨g2, r2, List.mem_cons_self _ _, h1, ?_, ?_, ?_, ?_⟩
            · rw [heq]; exact hr2
            · rw [heq]
            · rw [heq]; exact h2
            · intro q hq hqrel t hqt
              rw [heq]
              rcases List.mem_cons.mp hq with hcase | hcase
              · rw [hcase] at hqt; rw [hr2] at hqt
                injection hqt with hv
                exact le_of_eq hv.symm
              · exact hbound q hcase hqrel t hqt
          · right
            refine ⟨g, r, List.mem_cons_of_mem _ hmem, hrel, hti, hsel, lt_trans h2 hlt, ?_⟩
            intro q hq hqrel t hqt
            rcases List.mem_cons.mp hq with hcase | hcase
            · rw [hcase] at hqt; rw [hr2] at hqt
              injection hqt with hv
              rw [hv.symm]; exact le_of_lt hlt
            · exact hbound q hcase hqrel t hqt
        · have hstep : mostRecentScan aid ((g2, r2) :: rest) (latest, mr) =
              mostRecentScan aid rest (latest, mr) := by
            simp [mostRecentScan, h1, hr2, h2]
          rw [hstep]
          rcases ih latest mr hallr with ⟨heq, hbound⟩ | ⟨g, r, hmem, hrel, hti, hsel, hlt, hbound⟩
          · left
            refine ⟨heq, ?_⟩
            intro q hq hqrel t hqt
            rcases List.mem_cons.mp hq with hcase | hcase
            · rw [hcase] at hqt; rw [hr2] at hqt
              injection hqt with hv
              omega
            · exact hbound q hcase hqrel t hqt
          · right
            refine ⟨g, r, List.mem_cons_of_mem _ hmem, hrel, hti, hsel, hlt, ?_⟩
            intro q hq hqrel t hqt
            rcases List.mem_cons.mp hq with hcase | hcase
            · rw [hcase] at hqt; rw [hr2] at hqt
              injection hqt with hv
              have hdl : t ≤ latest := by omega
              exact le_trans hdl (le_of_lt hlt)
            · exact hbound q hcase hqrel t hqt
    · have hstep : mostRecentScan aid ((g2, r2) :: rest) (latest, mr) =
          mostRecentScan aid rest (latest, mr) := by
        simp [mostRecentScan, h1]
      rw [hstep]
      rcases ih latest mr hallr with ⟨heq, hbound⟩ | ⟨g, r, hmem, hrel, hti, hsel, hlt, hbound⟩
      · left
        refine ⟨heq, ?_⟩
        intro q hq hqrel t hqt
        rcases List.mem_cons.mp hq with hcase | hcase
        · rw [hcase] at hqrel; exact absurd hqrel h1
        · exact hbound q hcase hqrel t hqt
      · right
        refine ⟨g, r, List.mem_cons_of_mem _ hmem, hrel, hti, hsel, hlt, ?_⟩
        intro q hq hqrel t hqt
        rcases List.mem_cons.mp hq with hcase | hcase
        · rw [hcase] at hqrel; exact absurd hqrel h1
        · exact hbound q hcase hqrel t hqt

/-- **C6, amended.**  The most-recent-row selection is order-dependent.
A candidate row with a null timestamp becomes the selection the moment it is
examined, so the *last-examined* null row is always selected; but a
later-examined candidate whose timestamp exceeds the largest non-null
timestamp seen so far overrides an earlier null row.  When every candidate row
has a non-null timestamp and at least one timestamp is positive, the selected
row is a candidate carrying the maximum candidate timestamp. -/
theorem c6_amended :
    (∀ (aid : Int) (xs : List (String × TRow)) (gid : String) (row : TRow),
      row.relAssetId = some aid → row.lastInspect = none →
      mostRecentWoGid aid (xs ++ [(gid, row)]) = gid) ∧
    (∀ (aid : Int) (tbl : List (String × TRow)),
      (∀ p ∈ tbl, p.2.relAssetId = some aid → p.2.lastInspect.isSome) →
      (∃ q ∈ tbl, q.2.relAssetId = some aid ∧ ∃ t, q.2.lastInspect = some t ∧ 0 < t) →
      ∃ g r, mostRecentWoGid aid tbl = g ∧ (g, r) ∈ tbl ∧ r.relAssetId = some aid ∧
        ∃ ts, r.lastInspect = some ts ∧
          ∀ p ∈ tbl, p.2.relAssetId = some aid → ∀ t, p.2.lastInspect = some t → t ≤ ts) := by
  constructor
  · intro aid xs gid row hrel hnull
    exact mostRecentScan_last_null aid gid row hrel hnull xs (0, "")
  · intro aid tbl hall hex
    rcases mostRecentScan_max_inv aid tbl 0 "" hall with ⟨heq, hbound⟩ |
      ⟨g, r, hmem, hrel, hti, hsel, _, hbound⟩
    · exfalso
      obtain ⟨q, hq, hqrel, t, hqt, htpos⟩ := hex
      have := hbound q hq hqrel t hqt
      omega
    · exact ⟨g, r, hsel, hmem, hrel, (mostRecentScan aid tbl (0, "")).1, hti,
        hbound⟩

/-- **C6, witness.**  The amended statement at concrete inputs: a trailing
null-timestamp row is selected, and with all-non-null timestamps the maximum
(100) wins. -/
theorem c6_amended_witness :
    mostRecentWoGid 1
      [("B", { username := "", status := "", atype := "", due := none,
               lastInspect := some 100, relAssetId := some 1, created := 0, oid := 2 }),
       ("A", { username := "", status := "", atype := "", due := none,
               lastInspect := none, relAssetId := some 1, created := 0, oid := 1 })] = "A" ∧
    (∃ (g : String) (r : TRow), mostRecentWoGid 1
        ([("C", { username := "", status := "", atype := "", due := none,
                  lastInspect := some 7, relAssetId := some 1, created := 0, oid := 3 }),
          ("B", { username := "", status := "", atype := "", due := none,
                  lastInspect := some 100, relAssetId := some 1, created := 0, oid := 2 })] :
         List (String × TRow)) = g ∧
      (g, r) ∈ ([("C", { username := "", status := "", atype := "", due := none,
                         lastInspect := some 7, relAssetId := some 1, created := 0, oid := 3 }),
                 ("B", { username := "", status := "", atype := "", due := none,
                         lastInspect := some 100, relAssetId := some 1, created := 0, oid := 2 })] :
        List (String × TRow)) ∧
      r.relAssetId = some 1 ∧
      ∃ ts, r.lastInspect = some ts ∧
        ∀ p ∈ ([("C", { username := "", status := "", atype := "", due := none,
                        lastInspect := some 7, relAssetId := some 1, created := 0, oid := 3 }),
                ("B", { username := "", status := "", atype := "", due := none,
                        lastInspect := some 100, relAssetId := some 1, created := 0, oid := 2 })] :
          List (String × TRow)),
          p.2.relAssetId = some 1 → ∀ t, p.2.lastInspect = some t → t ≤ ts) := by
  constructor
  · exact c6_amended.1 1
      [("B", { username := "", status := "", atype := "", due := none,
               lastInspect := some 100, relAssetId := some 1, created := 0, oid := 2 })]
      "A" { username := "", status := "", atype := "", due := none,
            lastInspect := none, relAssetId := some 1, created := 0, oid := 1 }
      rfl rfl
  · exact c6_amended.2 1
      [("C", { username := "", status := "", atype := "", due := none,
               lastInspect := some 7, relAssetId := some 1, created := 0, oid := 3 }),
       ("B", { username := "", status := "", atype := "", due := none,
               lastInspect := some 100, relAssetId := some 1, created := 0, oid := 2 })]
      (by decide)
      ⟨("B", { username := "", status := "", atype := "", due := none,
               lastInspect := some 100, relAssetId := some 1, created := 0, oid := 2 }),
        by decide, rfl, 100, rfl, by decide⟩

/-- **C7.**  Per-asset write failures abort the whole legacy run instead of
being logged and skipped.  Four concrete aborts: (1) the new-work-order insert
raises and no work order with that `HazardID` exists, so the unguarded
read-back `work_orders.query(...).features[0]` raises `IndexError`; (2) the
attachment download raises (it *is* logged), then `for path in paths` raises
`NameError` because `paths` was never bound; (3) the asset date update
`assets.edit_features(updates=...)` (line 407) is outside any `try` and its
failure propagates; (4) the overdue status update (line 447) likewise. -/
theorem c7_write_failure_aborts_run :
    legacyStep 40 1 (some 864000000) 30 (some "WWS Operator Inspection") "g" none 0
      { insertFails := true, readbackEmpty := true } = .error .indexError ∧
    legacyStep 40 1 (some 864000000) 30 (some "WWS Operator Inspection") "g" none 0
      { hasAttachments := true, downloadFails := true } = .error .nameError ∧
    legacyStep 40 1 (some 0) 30 (some "WWS Operator Inspection") "g"
      (some { status := "Completed", completeDate := some 100, assignedTo := "w",
              due := some 0, oid := 5 }) 0
      { assetUpdateFails := true } = .error .writeError ∧
    legacyStep 40 1 (some 0) 30 (some "WWS Operator Inspection") "g"
      (some { status := "Assigned", completeDate := none, assignedTo := "w",
              due := some 0, oid := 5 }) 86400000
      { woUpdateFails := true } = .error .writeError := by
  exact ⟨by decide, by decide, by decide, by decide⟩

/-- **C8.**  Both snapshot builders admit an asset into the working set only
with a non-null next-inspection due date (legacy: OP or PE) and a non-null
asset identifier; an otherwise-eligible asset with a null identifier is logged
(its `OBJECTID` resp. `GlobalID` joins the warning list) and contributes no
dictionary entry at all — the dictionary built with it equals the one built
without it, hence no writes or report rows can arise from it. -/
theorem c8_admission :
    (∀ (assets : List RawAsset) (h : Int) (rec : LegacyAssetRec),
      (h, rec) ∈ buildAssetDictLegacy assets →
      ∃ a ∈ assets, a.hazardId = some h ∧
        (a.nextOp.isSome = true ∨ a.nextPe.isSome = true) ∧
        rec.nextOp = a.nextOp ∧ rec.nextPe = a.nextPe) ∧
    (∀ (pre post : List RawAsset) (a : RawAsset),
      (a.nextOp.isSome || a.nextPe.isSome) = true → a.hazardId = none →
      buildAssetDictLegacy (pre ++ a :: post) = buildAssetDictLegacy (pre ++ post) ∧
      a.oid ∈ legacyIdWarnings (pre ++ a :: post)) ∧
    (∀ (assets : List URawAsset) (i : Int) (ua : UAsset),
      (i, ua) ∈ buildAssetDictUnified assets →
      ∃ a ∈ assets, a.assetId = some i ∧ a.nextInspection = some ua.nextInsp) ∧
    (∀ (pre post : List URawAsset) (a : URawAsset),
      a.nextInspection.isSome = true → a.assetId = none →
      buildAssetDictUnified (pre ++ a :: post) = buildAssetDictUnified (pre ++ post) ∧
      a.globalId ∈ unifiedIdWarnings (pre ++ a :: post)) := by
  refine ⟨?_, ?_, ?_, ?_⟩
  · intro assets h rec hmem
    rw [buildAssetDictLegacy, List.mem_filterMap] at hmem
    obtain ⟨a, ha, hfa⟩ := hmem
    refine ⟨a, ha, ?_⟩
    rw [legacyAssetEntry] at hfa
    by_cases hc : (a.nextOp.isSome || a.nextPe.isSome) = true
    · rw [if_pos hc] at hfa
      cases hid : a.hazardId with
      | none => rw [hid] at hfa; exact absurd hfa (by simp)
      | some h2 =>
        rw [hid] at hfa
        injection hfa with hpair
        injection hpair with hk hv
        subst hk
        exact ⟨rfl, by simpa using hc, by rw [← hv], by rw [← hv]⟩
    · rw [if_neg hc] at hfa
      exact absurd hfa (by simp)
  · intro pre post a hc hid
    constructor
    · have hnone : legacyAssetEntry a = none := by
        rw [legacyAssetEntry, hid]
        split_ifs
        all_goals rfl
      rw [buildAssetDictLegacy, buildAssetDictLegacy, List.filterMap_append,
        List.filterMap_append, List.filterMap_cons, hnone]
    · rw [legacyIdWarnings, List.mem_filterMap]
      refine ⟨a, List.mem_append.mpr (Or.inr (List.mem_cons_self _ _)), ?_⟩
      rw [legacyWarnEntry, hc, hid]
      rfl
  · intro assets i ua hmem
    rw [buildAssetDictUnified, List.mem_filterMap] at hmem
    obtain ⟨a, ha, hfa⟩ := hmem
    refine ⟨a, ha, ?_⟩
    rw [unifiedAssetEntry] at hfa
    cases hn : a.nextInspection with
    | none => rw [hn] at hfa; exact absurd hfa (by simp)
    | some n =>
      rw [hn] at hfa
      cases hid : a.assetId with
      | none => rw [hid] at hfa; exact absurd hfa (by simp)
      | some j =>
        rw [hid] at hfa
        injection hfa with hpair
        injection hpair with hk hv
        subst hk
        exact ⟨rfl, by rw [← hv]⟩
  · intro pre post a hn hid
    constructor
    · have hnone : unifiedAssetEntry a = none := by
        rw [unifiedAssetEntry]
        cases hn2 : a.nextInspection with
        | none => rfl
        | some n => rw [hid]
      rw [buildAssetDictUnified, buildAssetDictUnified, List.filterMap_append,
        List.filterMap_append, List.filterMap_cons, hnone]
    · rw [unifiedIdWarnings, List.mem_filterMap]
      refine ⟨a, List.mem_append.mpr (Or.inr (List.mem_cons_self _ _)), ?_⟩
      rw [unifiedWarnEntry, hn, hid]
      rfl

/-- **C8, witness.**  The statement at concrete inputs: one admitted asset and
one skipped null-id asset in each model. -/
theorem c8_admission_witness :
    (∃ a ∈ [({ hazardId := some 1, opType := "Operator", opFreq := 30,
               nextOp := some 5, lastOp := none, peFreq := 365, nextPe := none,
               lastPe := none, oid := 7, geom := "g" } : RawAsset)],
      a.hazardId = some 1 ∧ (a.nextOp.isSome = true ∨ a.nextPe.isSome = true) ∧
      (some 5 : Option Int) = a.nextOp ∧ (none : Option Int) = a.nextPe) ∧
    (buildAssetDictLegacy ([] ++
        ({ hazardId := none, opType := "Operator", opFreq := 30, nextOp := some 5,
           lastOp := none, peFreq := 365, nextPe := none, lastPe := none,
           oid := 8, geom := "g" } : RawAsset) :: []) =
      buildAssetDictLegacy ([] ++ []) ∧
      (8 : Int) ∈ legacyIdWarnings ([] ++
        ({ hazardId := none, opType := "Operator", opFreq := 30, nextOp := some 5,
           lastOp := none, peFreq := 365, nextPe := none, lastPe := none,
           oid := 8, geom := "g" } : RawAsset) :: [])) := by
  constructor
  · have hm : ((1 : Int),
        ({ opType := "Operator", opFreq := 30, nextOp := some 5, lastOp := none,
           peFreq := 365, nextPe := none, lastPe := none, oid := 7,
           geom := "g" } : LegacyAssetRec)) ∈
        buildAssetDictLegacy
          [{ hazardId := some 1, opType := "Operator", opFreq := 30,
             nextOp := some 5, lastOp := none, peFreq := 365, nextPe := none,
             lastPe := none, oid := 7, geom := "g" }] := by decide
    obtain ⟨a, ha, h1, h2, h3, h4⟩ := c8_admission.1 _ _ _ hm
    exact ⟨a, ha, h1, h2, h3, h4⟩
  · exact c8_admission.2.1 [] []
      { hazardId := none, opType := "Operator", opFreq := 30, nextOp := some 5,
        lastOp := none, peFreq := 365, nextPe := none, lastPe := none,
        oid := 8, geom := "g" } (by decide) rfl

/-- **C9.**  Re-running either engine against an unchanged remote store — the
first run performed no writes — rebuilds the same snapshot and produces the
identical report buckets (each run is a pure function of the snapshot and of
`today`; the legacy mid-run reads only feed attachment copying and OIDs, and
the unified mid-run table read is of a table the run never writes). -/
theorem c9_idempotent :
    (∀ (st : LegacyStore) (today : Int) (r : LegacyBuckets × LegacyWrites),
      runLegacy (legacySnap st) today = .ok r → r.2 = {} →
      runLegacy (legacySnap (applyLegacyWrites st r.2)) today = .ok r) ∧
    (∀ (st : UnifiedStore) (today : Int) (r : UnifiedBuckets × UnifiedWrites),
      runUnified (unifiedSnap st) today = .ok r → r.2 = {} →
      runUnified (unifiedSnap (applyUnifiedWrites st r.2)) today = .ok r) := by
  constructor
  · intro st today r h hw
    rw [hw]
    have hid : applyLegacyWrites st {} = st := by
      simp [applyLegacyWrites]
    rw [hid]
    exact h
  · intro st today r h hw
    rw [hw]
    have hid : applyUnifiedWrites st {} = st := by
      simp [applyUnifiedWrites]
    rw [hid]
    exact h

/-- **C9, witness.**  Legacy: a store with one asset and one matching pending
work order due 10 days out emits one OP Upcoming row and performs no writes.
Unified: a store with one Crane asset due 10 days out and no work-order point
emits one Upcoming row and performs no writes.  In both models the second run
over the written-back store returns the same value. -/
theorem c9_idempotent_witness :
    runLegacy (legacySnap
      { assets := [{ hazardId := some 1, opType := "Operator", opFreq := 30,
                     nextOp := some 864000000, lastOp := none, peFreq := 365,
                     nextPe := none, lastPe := none, oid := 1, geom := "g" }],
        workOrders := [{ hazardId := some 1, atype := "WWS Operator Inspection",
                         completeDate := none, username := "u",
                         due := some 864000000, status := "Assigned", oid := 2 }] })
      0 = .ok ({ opUpcoming := [(1, { due := 864000000 })] }, {}) ∧
    runLegacy (legacySnap (applyLegacyWrites
      { assets := [{ hazardId := some 1, opType := "Operator", opFreq := 30,
                     nextOp := some 864000000, lastOp := none, peFreq := 365,
                     nextPe := none, lastPe := none, oid := 1, geom := "g" }],
        workOrders := [{ hazardId := some 1, atype := "WWS Operator Inspection",
                         completeDate := none, username := "u",
                         due := some 864000000, status := "Assigned", oid := 2 }] }
      ({} : LegacyWrites)))
      0 = .ok ({ opUpcoming := [(1, { due := 864000000 })] }, {}) ∧
    runUnified (unifiedSnap
      { assets := [{ assetId := some 1, equipType := "Crane",
                     nextInspection := some 864000000, lastInspect := none,
                     inspectInterval := "Weekly", oid := 1, globalId := "G1" }],
        woPoints := [], woTable := [] })
      0 = .ok ({ upcoming := [(1, { due := 864000000 })] }, {}) ∧
    runUnified (unifiedSnap (applyUnifiedWrites
      { assets := [{ assetId := some 1, equipType := "Crane",
                     nextInspection := some 864000000, lastInspect := none,
                     inspectInterval := "Weekly", oid := 1, globalId := "G1" }],
        woPoints := [], woTable := [] }
      ({} : UnifiedWrites)))
      0 = .ok ({ upcoming := [(1, { due := 864000000 })] }, {}) := by
  refine ⟨by decide, ?_, by decide, ?_⟩
  · exact c9_idempotent.1 _ 0 ({ opUpcoming := [(1, { due := 864000000 })] }, {})
      (by decide) rfl
  · exact c9_idempotent.2 _ 0 ({ upcoming := [(1, { due := 864000000 })] }, {})
      (by decide) rfl


/-- The left-to-right minimum scan: the result is the seed or an element of
the list, its creation time bounds every element's, and it bounds the seed's. -/
theorem foldl_minStep_spec :
    ∀ (l : List AFile) (acc : Option AFile) (f : AFile),
      l.foldl minStep acc = some f →
      (acc = some f ∨ f ∈ l) ∧ (∀ g ∈ l, f.ctime ≤ g.ctime) ∧
      (∀ a, acc = some a → f.ctime ≤ a.ctime) := by
  intro l
  induction l with
  | nil =>
    intro acc f hf
    rw [List.foldl_nil] at hf
    refine ⟨Or.inl hf, by simp, ?_⟩
    intro a ha
    rw [hf] at ha
    injection ha with hv
    rw [hv]
  | cons x rest ih =>
    intro acc f hf
    rw [List.foldl_cons] at hf
    obtain ⟨hmem, hbound, hacc⟩ := ih (minStep acc x) f hf
    have hsome : ∃ b, minStep acc x = some b := by
      cases acc with
      | none => exact ⟨x, rfl⟩
      | some g =>
        rw [minStep]
        by_cases hlt : x.ctime < g.ctime
        · exact ⟨x, if_pos hlt⟩
        · exact ⟨g, if_neg hlt⟩
    obtain ⟨b, hb⟩ := hsome
    have hfb : f.ctime ≤ b.ctime := hacc b hb
    have hbx : b.ctime ≤ x.ctime := by
      cases acc with
      | none => rw [minStep] at hb; injection hb with hv; rw [← hv]
      | some g =>
        rw [minStep] at hb
        by_cases hlt : x.ctime < g.ctime
        · rw [if_pos hlt] at hb; injection hb with hv; rw [← hv]
        · rw [if_neg hlt] at hb; injection hb with hv; rw [← hv]; omega
    refine ⟨?_, ?_, ?_⟩
    · rcases hmem with hm | hm
      · cases hc : acc with
        | none =>
          rw [hc, minStep] at hm
          injection hm with hv
          exact Or.inr (by rw [← hv]; exact List.mem_cons_self _ _)
        | some g =>
          rw [hc, minStep] at hm
          by_cases hlt : x.ctime < g.ctime
          · rw [if_pos hlt] at hm
            injection hm with hv
            exact Or.inr (by rw [← hv]; exact List.mem_cons_self _ _)
          · rw [if_neg hlt] at hm
            exact Or.inl hm
      · exact Or.inr (List.mem_cons_of_mem _ hm)
    · intro g hg
      rcases List.mem_cons.mp hg with hc | hc
      · rw [hc]; exact le_trans hfb hbx
      · exact hbound g hc
    · intro a ha
      have hba : b.ctime ≤ a.ctime := by
        rw [ha, minStep] at hb
        by_cases hlt : x.ctime < a.ctime
        · rw [if_pos hlt] at hb; injection hb with hv; rw [← hv]; omega
        · rw [if_neg hlt] at hb; injection hb with hv; rw [← hv]
      exact le_trans hfb hba

/-- `min(files, key=getctime)` returns a member of minimal creation time. -/
theorem oldestByCtime_spec (l : List AFile) (f : AFile)
    (hf : oldestByCtime l = some f) :
    f ∈ l ∧ ∀ g ∈ l, f.ctime ≤ g.ctime := by
  obtain ⟨hm, hb, _⟩ := foldl_minStep_spec l none f hf
  rcases hm with hm | hm
  · exact absurd hm (by simp)
  · exact ⟨hm, hb⟩

/-- Scanning from a `some` seed never yields `none`. -/
theorem foldl_minStep_isSome :
    ∀ (l : List AFile) (a : AFile), (l.foldl minStep (some a)).isSome := by
  intro l
  induction l with
  | nil => intro a; rfl
  | cons x rest ih =>
    intro a
    rw [List.foldl_cons]
    rcases hs : minStep (some a) x with _ | b
    · rw [minStep] at hs
      split_ifs at hs
    · exact ih b

/-- **C10.**  `cleanUp` always moves the run's workbook into the archive (the
workbook is in the resulting folder), never deletes it in the same run, and
deletes at most one file: only when the folder holds more than 8 entries after
the move, and then exactly the `.xlsx` with the oldest creation time, which
came from the pre-existing archive.  (Hypotheses: the workbook name ends in
`.xlsx` — `createWorkbook` always produces `WWSAssetUpdates_<date>.xlsx` — so
`min` never sees an empty list, and its timestamped name is not already
archived.) -/
theorem c10_cleanup (archive : List AFile) (wb : AFile)
    (hx : endsWithXlsx wb.name = true) :
    ∃ arch del, cleanUp archive wb = some (arch, del) ∧
      wb ∈ arch ∧
      (∀ f, del = some f → f.name ≠ wb.name ∧ f ∈ archive ∧
        endsWithXlsx f.name = true ∧
        8 < (archive ++ [wb]).length ∧
        arch = (archive ++ [wb]).eraseP (fun g => g.name == f.name) ∧
        ∀ g ∈ archive ++ [wb], endsWithXlsx g.name = true → f.ctime ≤ g.ctime) ∧
      (del = none → arch = archive ++ [wb]) := by
  have hwbmoved : wb ∈ archive ++ [wb] :=
    List.mem_append.mpr (Or.inr (List.mem_cons_self _ _))
  by_cases hlen : 8 < (archive ++ [wb]).length
  · have hwbf : wb ∈ (archive ++ [wb]).filter (fun f => endsWithXlsx f.name) :=
      List.mem_filter.mpr ⟨hwbmoved, hx⟩
    rcases hold : oldestByCtime ((archive ++ [wb]).filter (fun f => endsWithXlsx f.name)) with _ | oldest
    · exfalso
      rcases hfl : (archive ++ [wb]).filter (fun f => endsWithXlsx f.name) with _ | ⟨y, ys⟩
      · rw [hfl] at hwbf; exact absurd hwbf (by simp)
      · rw [hfl] at hold
        rw [oldestByCtime, List.foldl_cons] at hold
        have := foldl_minStep_isSome ys y
        rw [show minStep none y = some y from rfl] at hold
        rw [hold] at this
        exact absurd this (by simp)
    · obtain ⟨homem, hobound⟩ := oldestByCtime_spec _ _ hold
      by_cases hne : oldest.name ≠ wb.name
      · refine ⟨(archive ++ [wb]).eraseP (fun g => g.name == oldest.name),
          some oldest, ?_, ?_, ?_, ?_⟩
        · simp only [cleanUp]
          rw [if_pos hlen]
          split
          · next heq => rw [hold] at heq; exact absurd heq (by simp)
          · next o heq =>
              rw [hold] at heq
              injection heq with hv
              subst hv
              rw [if_pos hne]
        · refine (List.mem_eraseP_of_neg ?_).mpr hwbmoved
          simp only [beq_iff_eq]
          intro hcontra
          exact hne (hcontra.symm)
        · intro f hfdel
          injection hfdel with hv
          subst hv
          obtain ⟨homoved, hoxlsx⟩ := List.mem_filter.mp homem
          refine ⟨hne, ?_, hoxlsx, hlen, rfl, ?_⟩
          · rcases List.mem_append.mp homoved with hcase | hcase
            · exact hcase
            · exfalso
              have : oldest = wb := by
                rcases List.mem_cons.mp hcase with hcc | hcc
                · exact hcc
                · exact absurd hcc (by simp)
              exact hne (by rw [this])
          · intro g hg hgx
            exact hobound g (List.mem_filter.mpr ⟨hg, hgx⟩)
        · intro hcontra
          exact absurd hcontra (by simp)
      · refine ⟨archive ++ [wb], none, ?_, hwbmoved, ?_, fun _ => rfl⟩
        · simp only [cleanUp]
          rw [if_pos hlen]
          split
          · next heq => rw [hold] at heq; exact absurd heq (by simp)
          · next o heq =>
              rw [hold] at heq
              injection heq with hv
              subst hv
              rw [if_neg hne]
        · intro f hfdel
          exact absurd hfdel (by simp)
  · refine ⟨archive ++ [wb], none, ?_, hwbmoved, ?_, fun _ => rfl⟩
    · simp only [cleanUp]
      rw [if_neg hlen]
    · intro f hfdel
      exact absurd hfdel (by simp)

/-- **C10, witness.**  A concrete run: nine archived files plus the new
workbook; the oldest archived `.xlsx` is deleted, the workbook survives. -/
theorem c10_cleanup_witness :
    ∃ arch del,
      cleanUp
        [⟨"a1.xlsx", 1⟩, ⟨"a2.xlsx", 2⟩, ⟨"a3.xlsx", 3⟩, ⟨"a4.xlsx", 4⟩,
         ⟨"a5.xlsx", 5⟩, ⟨"a6.xlsx", 6⟩, ⟨"a7.xlsx", 7⟩, ⟨"a8.xlsx", 8⟩]
        ⟨"WWSAssetUpdates_20260101.xlsx", 9⟩ = some (arch, del) ∧
      (⟨"WWSAssetUpdates_20260101.xlsx", 9⟩ : AFile) ∈ arch ∧
      (∀ f, del = some f → f.name ≠ "WWSAssetUpdates_20260101.xlsx" ∧
        f ∈ [(⟨"a1.xlsx", 1⟩ : AFile), ⟨"a2.xlsx", 2⟩, ⟨"a3.xlsx", 3⟩, ⟨"a4.xlsx", 4⟩,
             ⟨"a5.xlsx", 5⟩, ⟨"a6.xlsx", 6⟩, ⟨"a7.xlsx", 7⟩, ⟨"a8.xlsx", 8⟩] ∧
        endsWithXlsx f.name = true ∧
        8 < ([(⟨"a1.xlsx", 1⟩ : AFile), ⟨"a2.xlsx", 2⟩, ⟨"a3.xlsx", 3⟩, ⟨"a4.xlsx", 4⟩,
              ⟨"a5.xlsx", 5⟩, ⟨"a6.xlsx", 6⟩, ⟨"a7.xlsx", 7⟩, ⟨"a8.xlsx", 8⟩] ++
             [(⟨"WWSAssetUpdates_20260101.xlsx", 9⟩ : AFile)]).length ∧
        arch = ([(⟨"a1.xlsx", 1⟩ : AFile), ⟨"a2.xlsx", 2⟩, ⟨"a3.xlsx", 3⟩, ⟨"a4.xlsx", 4⟩,
                 ⟨"a5.xlsx", 5⟩, ⟨"a6.xlsx", 6⟩, ⟨"a7.xlsx", 7⟩, ⟨"a8.xlsx", 8⟩] ++
                [(⟨"WWSAssetUpdates_20260101.xlsx", 9⟩ : AFile)]).eraseP (fun g => g.name == f.name) ∧
        ∀ g ∈ ([(⟨"a1.xlsx", 1⟩ : AFile), ⟨"a2.xlsx", 2⟩, ⟨"a3.xlsx", 3⟩, ⟨"a4.xlsx", 4⟩,
                ⟨"a5.xlsx", 5⟩, ⟨"a6.xlsx", 6⟩, ⟨"a7.xlsx", 7⟩, ⟨"a8.xlsx", 8⟩] ++
               [(⟨"WWSAssetUpdates_20260101.xlsx", 9⟩ : AFile)]),
          endsWithXlsx g.name = true → f.ctime ≤ g.ctime) ∧
      (del = none →
        arch = [(⟨"a1.xlsx", 1⟩ : AFile), ⟨"a2.xlsx", 2⟩, ⟨"a3.xlsx", 3⟩, ⟨"a4.xlsx", 4⟩,
                ⟨"a5.xlsx", 5⟩, ⟨"a6.xlsx", 6⟩, ⟨"a7.xlsx", 7⟩, ⟨"a8.xlsx", 8⟩] ++
               [(⟨"WWSAssetUpdates_20260101.xlsx", 9⟩ : AFile)]) := by
  exact c10_cleanup
    [⟨"a1.xlsx", 1⟩, ⟨"a2.xlsx", 2⟩, ⟨"a3.xlsx", 3⟩, ⟨"a4.xlsx", 4⟩,
     ⟨"a5.xlsx", 5⟩, ⟨"a6.xlsx", 6⟩, ⟨"a7.xlsx", 7⟩, ⟨"a8.xlsx", 8⟩]
    ⟨"WWSAssetUpdates_20260101.xlsx", 9⟩ (by decide)
